import Mathlib

/-!
Verification development for the C-Solar-Sim gravitational N-body core.

The C++ sources are shallowly embedded in Lean:
* `double` arithmetic is idealised as exact arithmetic (ℚ where the code only
  uses field operations and comparisons, ℝ where it calls `sqrt`, `sin`, `cos`,
  `acos`, `atan2` or uses `M_PI`);
* `std::vector` becomes `List`, with the memory pool of `OctreePool` as a list
  of nodes indexed by `ℕ` (the capacity-doubling `resize` in `allocate` has no
  observable effect and is embedded as an append);
* the potentially non-terminating recursion of `OctreePool::insert`
  (it recurses forever on coincident body positions) is embedded with an
  explicit fuel parameter returning `Option`;
* `std::pow(x, 1.0/3.0)` in the collision merge is kept abstract as a
  parameter `cbrtFn` of the embedding, so the collision theorems hold for any
  cube-root routine.
-/

namespace SolarSim

/-- Embedding of `Vector3` (src/include/Vector3.hpp): three scalar components.
The `padding` member is alignment-only and is omitted. -/
@[ext]
structure Vec3 (α : Type) where
  x : α
  y : α
  z : α
deriving DecidableEq

namespace Vec3

variable {α : Type} [Field α]

/-- `Vector3::operator+`. -/
def add (a b : Vec3 α) : Vec3 α := ⟨a.x + b.x, a.y + b.y, a.z + b.z⟩

/-- `Vector3::operator-`. -/
def sub (a b : Vec3 α) : Vec3 α := ⟨a.x - b.x, a.y - b.y, a.z - b.z⟩

/-- Negation (derived from `operator-`). -/
def negV (a : Vec3 α) : Vec3 α := ⟨-a.x, -a.y, -a.z⟩

/-- The zero vector `Vector3()`. -/
def zeroV : Vec3 α := ⟨0, 0, 0⟩

/-- `Vector3::operator*(double scalar)`. -/
def scale (v : Vec3 α) (s : α) : Vec3 α := ⟨v.x * s, v.y * s, v.z * s⟩

/-- `Vector3::operator/(double scalar)`. -/
def divScale (v : Vec3 α) (s : α) : Vec3 α := ⟨v.x / s, v.y / s, v.z / s⟩

instance : Zero (Vec3 α) := ⟨zeroV⟩

instance : Add (Vec3 α) := ⟨add⟩

instance : Neg (Vec3 α) := ⟨negV⟩

instance : Sub (Vec3 α) := ⟨sub⟩

instance : AddCommGroup (Vec3 α) where
  add_assoc := by intro a b c; show add (add a b) c = add a (add b c); ext <;> simp [add] <;> ring
  zero_add := by intro a; show add zeroV a = a; ext <;> simp [add, zeroV]
  add_zero := by intro a; show add a zeroV = a; ext <;> simp [add, zeroV]
  add_comm := by intro a b; show add a b = add b a; ext <;> simp [add] <;> ring
  neg_add_cancel := by intro a; show add (negV a) a = zeroV; ext <;> simp [add, negV, zeroV]
  sub_eq_add_neg := by intro a b; show sub a b = add a (negV b); ext <;> simp [add, negV, sub, sub_eq_add_neg]
  nsmul := nsmulRec
  zsmul := zsmulRec

instance : HMul (Vec3 α) α (Vec3 α) := ⟨scale⟩

instance : HDiv (Vec3 α) α (Vec3 α) := ⟨divScale⟩

theorem add_def (a b : Vec3 α) : a + b = ⟨a.x + b.x, a.y + b.y, a.z + b.z⟩ := rfl

theorem sub_def (a b : Vec3 α) : a - b = ⟨a.x - b.x, a.y - b.y, a.z - b.z⟩ := rfl

theorem zero_def : (0 : Vec3 α) = ⟨0, 0, 0⟩ := rfl

theorem smul_def (v : Vec3 α) (s : α) : v * s = ⟨v.x * s, v.y * s, v.z * s⟩ := rfl

theorem div_def (v : Vec3 α) (s : α) : v / s = ⟨v.x / s, v.y / s, v.z / s⟩ := rfl

/-- `Vector3::lengthSquared`. -/
def lengthSquared (v : Vec3 α) : α := v.x * v.x + v.y * v.y + v.z * v.z

/-- Modelled from the spec: the spec states Vector3 "supports
add/sub/scale/dot/cross/length", and `OrbitCalculator` calls `Vector3::dot`,
but the member is missing from the provided src/include/Vector3.hpp.
Standard Euclidean dot product. -/
def dot (a b : Vec3 α) : α := a.x * b.x + a.y * b.y + a.z * b.z

/-- Modelled from the spec: the spec states Vector3 "supports
add/sub/scale/dot/cross/length", and `OrbitCalculator` calls `Vector3::cross`,
but the member is missing from the provided src/include/Vector3.hpp.
Standard right-handed cross product. -/
def cross (a b : Vec3 α) : Vec3 α :=
  ⟨a.y * b.z - a.z * b.y, a.z * b.x - a.x * b.z, a.x * b.y - a.y * b.x⟩

/-- `Vector3::length` (only needed at scalar type ℝ). -/
noncomputable def length (v : Vec3 ℝ) : ℝ := Real.sqrt v.lengthSquared

end Vec3

/-- Embedding of `Body` (src/include/Body.hpp). -/
structure Body (α : Type) where
  name : String
  mass : α
  radius : α
  position : Vec3 α
  velocity : Vec3 α
  acceleration : Vec3 α
  trail : List (Vec3 α)
  rotationAngle : α
  rotationSpeed : α
  axialTilt : α
  parentName : String
deriving DecidableEq

instance {α : Type} [Field α] : Inhabited (Body α) :=
  ⟨{ name := "", mass := 0, radius := 0, position := 0, velocity := 0,
     acceleration := 0, trail := [], rotationAngle := 0, rotationSpeed := 0,
     axialTilt := 0, parentName := "" }⟩

namespace Constants

/-- `Constants::G = 4.0 * M_PI * M_PI` (src/include/Constants.hpp). -/
noncomputable def G : ℝ := 4 * Real.pi * Real.pi

/-- `Constants::SOFTENING_EPSILON = 1e-9` (src/include/Constants.hpp). -/
def SOFTENING_EPSILON : ℝ := 1e-9

end Constants

/-! Embedding of the pooled octree (src/include/Octree.hpp), at scalar type ℚ:
`OctreePool::insert` only uses field operations and comparisons. -/

/-- Embedding of `OctreeNode`. `bodies[1]`/`numBodies` become
`body? : Option (Body ℚ)` plus `numBodies`; `children` is the list of 8 pool
indices with `-1` for "none". -/
structure OctreeNode where
  centerOfMass : Vec3 ℚ
  totalMass : ℚ
  minBounds : Vec3 ℚ
  size : ℚ
  children : List ℤ
  body? : Option (Body ℚ)
  numBodies : ℕ
  isLeaf : Bool
deriving DecidableEq

/-- `OctreeNode::reset(minB, s)`. -/
def OctreeNode.reset (minB : Vec3 ℚ) (s : ℚ) : OctreeNode :=
  { centerOfMass := ⟨0, 0, 0⟩
    totalMass := 0
    minBounds := minB
    size := s
    children := [-1, -1, -1, -1, -1, -1, -1, -1]
    body? := none
    numBodies := 0
    isLeaf := true }

instance : Inhabited OctreeNode := ⟨OctreeNode.reset ⟨0, 0, 0⟩ 0⟩

/-- Embedding of `OctreePool`: the contiguous pool of allocated nodes.
Only the allocated prefix `pool[0..nextFree)` is observable, so the pool is
the list of allocated nodes and `nextFree` is its length. -/
structure OctreePool where
  nodes : List OctreeNode
deriving DecidableEq

namespace OctreePool

/-- `OctreePool::clear()` on a fresh pool / the empty allocated prefix. -/
def empty : OctreePool := ⟨[]⟩

/-- `pool[idx]` read access. -/
def get (p : OctreePool) (idx : ℕ) : OctreeNode := p.nodes.getD idx default

/-- `pool[idx] = n` write access. -/
def set (p : OctreePool) (idx : ℕ) (n : OctreeNode) : OctreePool := ⟨p.nodes.set idx n⟩

/-- `OctreePool::allocate(minB, size)`: the C++ doubles the backing vector's
capacity when full and resets `pool[nextFree]`; observably this appends one
reset node and returns its index. -/
def allocate (p : OctreePool) (minB : Vec3 ℚ) (size : ℚ) : OctreePool × ℕ :=
  (⟨p.nodes ++ [OctreeNode.reset minB size]⟩, p.nodes.length)

/-- The octant-selection and child-allocation part of
`OctreePool::insertIntoChild` (everything before its tail call to `insert`):
computes the 3-bit octant index (`pos.x >= mid.x` sets bit 1, `.y` bit 2,
`.z` bit 4), allocates the child if absent, and returns the updated pool with
the child index. -/
def childSlot (p : OctreePool) (nodeIdx : ℕ) (b : Body ℚ) : OctreePool × ℕ :=
  let node := p.get nodeIdx
  let halfSize := node.size * 0.5
  let mid := node.minBounds + (⟨halfSize, halfSize, halfSize⟩ : Vec3 ℚ)
  let idx : ℕ := (if mid.x ≤ b.position.x then 1 else 0)
    + (if mid.y ≤ b.position.y then 2 else 0)
    + (if mid.z ≤ b.position.z then 4 else 0)
  let c := node.children.getD idx (-1)
  if c = -1 then
    let cMin : Vec3 ℚ :=
      ⟨node.minBounds.x + (if mid.x ≤ b.position.x then halfSize else 0),
       node.minBounds.y + (if mid.y ≤ b.position.y then halfSize else 0),
       node.minBounds.z + (if mid.z ≤ b.position.z then halfSize else 0)⟩
    let pr := p.allocate cMin halfSize
    let parent := pr.1.get nodeIdx
    (pr.1.set nodeIdx { parent with children := parent.children.set idx (pr.2 : ℤ) }, pr.2)
  else
    (p, c.toNat)

/-- The body of `OctreePool::insert` (src/include/Octree.hpp lines 100-121),
with the recursive occurrences of `insert` abstracted as `rec`, and
`insertIntoChild` decomposed into `childSlot` followed by the recursive
`insert` call, exactly as in the C++. -/
def insertStep (rec : OctreePool → ℕ → Body ℚ → Option OctreePool)
    (p : OctreePool) (nodeIdx : ℕ) (b : Body ℚ) : Option OctreePool :=
  let node := p.get nodeIdx
  if node.isLeaf then
    if node.numBodies = 0 then
      some (p.set nodeIdx
        { node with
          body? := some b
          numBodies := 1
          totalMass := b.mass
          centerOfMass := b.position })
    else
      match node.body? with
      | none => none
      | some existingBody =>
        let p1 := p.set nodeIdx { node with isLeaf := false, numBodies := 0 }
        let s1 := childSlot p1 nodeIdx existingBody
        match rec s1.1 s1.2 existingBody with
        | none => none
        | some p2 =>
          let s2 := childSlot p2 nodeIdx b
          rec s2.1 s2.2 b
  else
    let s := childSlot p nodeIdx b
    match rec s.1 s.2 b with
    | none => none
    | some p2 =>
      let node2 := p2.get nodeIdx
      some (p2.set nodeIdx
        { node2 with
          centerOfMass := (node2.centerOfMass * node2.totalMass
            + b.position * b.mass) / (node2.totalMass + b.mass)
          totalMass := node2.totalMass + b.mass })

/-- Embedding of `OctreePool::insert`. The C++ recursion does not terminate
for coincident body positions, so the embedding takes fuel and returns
`none` on exhaustion. -/
def insert : ℕ → OctreePool → ℕ → Body ℚ → Option OctreePool
  | 0, _, _, _ => none
  | fuel + 1, p, nodeIdx, b => insertStep (insert fuel) p nodeIdx b

end OctreePool

/-- The octree-construction prefix of `PhysicsEngine::stepBarnesHut`
(src/include/PhysicsEngine.hpp lines 263-275): bounding-box scan, root
allocation, and insertion of every body, on a cleared pool. -/
def buildTree (fuel : ℕ) (bodies : List (Body ℚ)) : Option (OctreePool × ℕ) :=
  let minB := bodies.foldl
    (fun (m : Vec3 ℚ) b =>
      ⟨min m.x b.position.x, min m.y b.position.y, min m.z b.position.z⟩)
    (⟨1e18, 1e18, 1e18⟩ : Vec3 ℚ)
  let maxB := bodies.foldl
    (fun (m : Vec3 ℚ) b =>
      ⟨max m.x b.position.x, max m.y b.position.y, max m.z b.position.z⟩)
    (⟨-1e18, -1e18, -1e18⟩ : Vec3 ℚ)
  let s := max (max (maxB.x - minB.x) (maxB.y - minB.y)) (maxB.z - minB.z) * 0.5 + 0.1
  let mid := (minB + maxB) * (0.5 : ℚ)
  let pr := OctreePool.empty.allocate (mid - (⟨s, s, s⟩ : Vec3 ℚ)) (s * 2)
  let poolOpt := bodies.foldl
    (fun (acc : Option OctreePool) b =>
      match acc with
      | none => none
      | some p => OctreePool.insert fuel p pr.2 b)
    (some pr.1)
  match poolOpt with
  | none => none
  | some p => some (p, pr.2)

/-- Sum of the masses of a body list. -/
def massSum (bodies : List (Body ℚ)) : ℚ := (bodies.map Body.mass).sum

/-- Mass-weighted average position of a body list (the spec's
center-of-mass of all bodies in a subtree). -/
def massWeightedAverage (bodies : List (Body ℚ)) : Vec3 ℚ :=
  (bodies.map fun b => b.position * b.mass).sum / massSum bodies

/-- A mass-1 body at the origin (an input to `stepBarnesHut`). -/
def demoBodyA : Body ℚ :=
  { name := "A", mass := 1, radius := 1/100, position := ⟨0, 0, 0⟩,
    velocity := ⟨0, 0, 0⟩, acceleration := ⟨0, 0, 0⟩, trail := [],
    rotationAngle := 0, rotationSpeed := 0, axialTilt := 0, parentName := "" }

/-- A mass-2 body at (1,1,1) (an input to `stepBarnesHut`). -/
def demoBodyB : Body ℚ :=
  { name := "B", mass := 2, radius := 1/100, position := ⟨1, 1, 1⟩,
    velocity := ⟨0, 0, 0⟩, acceleration := ⟨0, 0, 0⟩, trail := [],
    rotationAngle := 0, rotationSpeed := 0, axialTilt := 0, parentName := "" }

/-- A two-body input on which `stepBarnesHut` builds an octree. -/
def demoBodies : List (Body ℚ) := [demoBodyA, demoBodyB]

/-- A unit-mass, unit-radius body at the origin moving in +x; it overlaps
`collideDemoB`. -/
def collideDemoA : Body ℚ :=
  { name := "A", mass := 1, radius := 1, position := ⟨0, 0, 0⟩,
    velocity := ⟨1, 0, 0⟩, acceleration := ⟨0, 0, 0⟩, trail := [],
    rotationAngle := 0, rotationSpeed := 0, axialTilt := 0, parentName := "" }

/-- A unit-mass, unit-radius body at rest at (1,0,0). -/
def collideDemoB : Body ℚ :=
  { name := "B", mass := 1, radius := 1, position := ⟨1, 0, 0⟩,
    velocity := ⟨0, 0, 0⟩, acceleration := ⟨0, 0, 0⟩, trail := [],
    rotationAngle := 0, rotationSpeed := 0, axialTilt := 0, parentName := "" }

/-- The root node's stored total mass after building the demo tree. -/
def demoRootTotalMass : Option ℚ :=
  (buildTree 10 demoBodies).map fun pr => (pr.1.get pr.2).totalMass

/-- The root node's stored center of mass after building the demo tree. -/
def demoRootCenterOfMass : Option (Vec3 ℚ) :=
  (buildTree 10 demoBodies).map fun pr => (pr.1.get pr.2).centerOfMass

/-- `Body::MAX_TRAIL_POINTS = 500` (src/include/Body.hpp). -/
def MAX_TRAIL_POINTS : ℕ := 500

/-- Truncation toward zero, the rounding used by C `fmod`. -/
def truncTowardZero (q : ℚ) : ℤ := if 0 ≤ q then ⌊q⌋ else ⌈q⌉

/-- Embedding of `std::fmod` on exact rationals. -/
def qfmod (a b : ℚ) : ℚ := a - b * ((truncTowardZero (a / b) : ℤ) : ℚ)

/-- Embedding of `Body::updateRotation(dt)` (src/include/Body.hpp). -/
def Body.updateRotation (dt : ℚ) (b : Body ℚ) : Body ℚ :=
  let ra := qfmod (b.rotationAngle + b.rotationSpeed * dt) 360
  { b with rotationAngle := if ra < 0 then ra + 360 else ra }

/-- Embedding of `Body::updatePosition(dt)` (src/include/Body.hpp):
advance the position, update the rotation, push the new position onto the
trail and pop the oldest entry when the size exceeds `MAX_TRAIL_POINTS`. -/
def Body.updatePosition (dt : ℚ) (b : Body ℚ) : Body ℚ :=
  let b1 := { b with position := b.position + b.velocity * dt }
  let b2 := Body.updateRotation dt b1
  let t := b2.trail ++ [b2.position]
  { b2 with trail := if MAX_TRAIL_POINTS < t.length then t.tail else t }

/-- Embedding of `std::clamp(v, lo, hi)`. -/
noncomputable def clampStd (v lo hi : ℝ) : ℝ :=
  if v < lo then lo else if hi < v then hi else v

namespace PhysicsEngine

/-- The in-place merge performed by `PhysicsEngine::handleCollisions`
(src/include/PhysicsEngine.hpp lines 115-126). `cbrtFn` stands for the
library routine `std::pow(·, 1.0/3.0)` used for the volume-conserving
radius; every collision theorem below holds for an arbitrary `cbrtFn`. -/
def mergeBodies (cbrtFn : ℚ → ℚ) (b1 b2 : Body ℚ) : Body ℚ :=
  let newMass := b1.mass + b2.mass
  let newPos := (b1.position * b1.mass + b2.position * b2.mass) / newMass
  let newVel := (b1.velocity * b1.mass + b2.velocity * b2.mass) / newMass
  let newRadius := cbrtFn (b1.radius ^ 3 + b2.radius ^ 3)
  { b1 with
    name := b1.name ++ "-" ++ b2.name
    mass := newMass
    radius := newRadius
    position := newPos
    velocity := newVel }

/-- One pass of the inner `j` loop of `handleCollisions` for the body at the
outer index: scans the bodies after it, merging every overlapping one into it
(the `--j` after `erase` makes the loop continue with the element that
shifted into slot `j`, i.e. with the remainder of the list). Returns the
final outer body and the surviving later bodies. -/
def collideWith (cbrtFn : ℚ → ℚ) : Body ℚ → List (Body ℚ) → Body ℚ × List (Body ℚ)
  | b1, [] => (b1, [])
  | b1, b2 :: rest =>
    if (b2.position - b1.position).lengthSquared
        < (b1.radius + b2.radius) * (b1.radius + b2.radius) then
      collideWith cbrtFn (mergeBodies cbrtFn b1 b2) rest
    else
      let pr := collideWith cbrtFn b1 rest
      (pr.1, b2 :: pr.2)

/-- Number of merge events in one `collideWith` pass. -/
def collideWithCount (cbrtFn : ℚ → ℚ) : Body ℚ → List (Body ℚ) → ℕ
  | _, [] => 0
  | b1, b2 :: rest =>
    if (b2.position - b1.position).lengthSquared
        < (b1.radius + b2.radius) * (b1.radius + b2.radius) then
      collideWithCount cbrtFn (mergeBodies cbrtFn b1 b2) rest + 1
    else
      collideWithCount cbrtFn b1 rest

/-- The outer `i` loop of `handleCollisions`. The fuel only serves Lean's
termination checker; `handleCollisions` passes the list length, which is
never exhausted because a pass never lengthens the remainder. -/
def handleCollisionsGo (cbrtFn : ℚ → ℚ) : ℕ → List (Body ℚ) → List (Body ℚ)
  | _, [] => []
  | 0, l => l
  | fuel + 1, b :: rest =>
    let pr := collideWith cbrtFn b rest
    pr.1 :: handleCollisionsGo cbrtFn fuel pr.2

/-- Embedding of `PhysicsEngine::handleCollisions`
(src/include/PhysicsEngine.hpp lines 109-133). -/
def handleCollisions (cbrtFn : ℚ → ℚ) (bodies : List (Body ℚ)) : List (Body ℚ) :=
  handleCollisionsGo cbrtFn bodies.length bodies

/-- Total number of merge events of one `handleCollisions` call. -/
def numMergeEventsGo (cbrtFn : ℚ → ℚ) : ℕ → List (Body ℚ) → ℕ
  | _, [] => 0
  | 0, _ => 0
  | fuel + 1, b :: rest =>
    let pr := collideWith cbrtFn b rest
    collideWithCount cbrtFn b rest + numMergeEventsGo cbrtFn fuel pr.2

/-- Total number of merge events of `handleCollisions bodies`. -/
def numMergeEvents (cbrtFn : ℚ → ℚ) (bodies : List (Body ℚ)) : ℕ :=
  numMergeEventsGo cbrtFn bodies.length bodies

/-- Total mass of a body collection. -/
def totalMass (bodies : List (Body ℚ)) : ℚ := (bodies.map Body.mass).sum

/-- Total momentum of a body collection. -/
def totalMomentum (bodies : List (Body ℚ)) : Vec3 ℚ :=
  (bodies.map fun b => b.velocity * b.mass).sum

/-- The ordered pair indices `(i, j)`, `i < j < n`, visited by the doubly
nested loops of `calculateAccelerations`, `handleCollisions` and
`getAdaptiveTimestep`. -/
def pairList (n : ℕ) : List (ℕ × ℕ) :=
  (List.range n).flatMap fun i => ((List.range n).drop (i + 1)).map fun j => (i, j)

/-- The body of the inner loop of `PhysicsEngine::calculateAccelerations`
(src/include/PhysicsEngine.hpp lines 65-92) acting on the acceleration table:
the local accumulator `axi/ayi/azi` written back after the inner loop is
observably the same as updating `acc i` in place, since no later inner-loop
read sees `acc i`. -/
noncomputable def accStep (pos : ℕ → Vec3 ℝ) (mass : ℕ → ℝ)
    (acc : ℕ → Vec3 ℝ) (ij : ℕ × ℕ) : ℕ → Vec3 ℝ :=
  let dx := (pos ij.2).x - (pos ij.1).x
  let dy := (pos ij.2).y - (pos ij.1).y
  let dz := (pos ij.2).z - (pos ij.1).z
  let distSq := dx * dx + dy * dy + dz * dz + Constants.SOFTENING_EPSILON
  let invDist := 1 / Real.sqrt distSq
  let invDist3 := invDist * invDist * invDist
  let f := Constants.G * invDist3
  let fx := dx * f
  let fy := dy * f
  let fz := dz * f
  let acc1 := Function.update acc ij.1
    (acc ij.1 + (⟨fx * mass ij.2, fy * mass ij.2, fz * mass ij.2⟩ : Vec3 ℝ))
  Function.update acc1 ij.2
    (acc1 ij.2 - (⟨fx * mass ij.1, fy * mass ij.1, fz * mass ij.1⟩ : Vec3 ℝ))

/-- Embedding of `PhysicsEngine::calculateAccelerations`
(src/include/PhysicsEngine.hpp lines 50-99): reset all accelerations, then
run the pairwise loop. -/
noncomputable def calculateAccelerations (bodies : List (Body ℝ)) : List (Body ℝ) :=
  let pos := fun i => (bodies.getD i default).position
  let mass := fun i => (bodies.getD i default).mass
  let acc := (pairList bodies.length).foldl (accStep pos mass) fun _ => 0
  bodies.enum.map fun ib => { ib.2 with acceleration := acc ib.1 }

/-- Mass-weighted sum of the accelerations of a body collection
(the total force on the system, divided through by nothing). -/
noncomputable def massWeightedAccelSum (bodies : List (Body ℝ)) : Vec3 ℝ :=
  (bodies.map fun b => b.acceleration * b.mass).sum

/-- The softened squared distance of the direct pairwise force
(src/include/PhysicsEngine.hpp line 75). -/
noncomputable def directSoftenedDistSq (posI posJ : Vec3 ℝ) : ℝ :=
  (posJ - posI).lengthSquared + Constants.SOFTENING_EPSILON

/-- The contribution of body `j` to body `i`'s acceleration in the direct
pairwise loop of `calculateAccelerations`
(src/include/PhysicsEngine.hpp lines 70-87). -/
noncomputable def directPairAccel (posI posJ : Vec3 ℝ) (mj : ℝ) : Vec3 ℝ :=
  let dx := posJ.x - posI.x
  let dy := posJ.y - posI.y
  let dz := posJ.z - posI.z
  let distSq := dx * dx + dy * dy + dz * dz + Constants.SOFTENING_EPSILON
  let invDist := 1 / Real.sqrt distSq
  let invDist3 := invDist * invDist * invDist
  let f := Constants.G * invDist3
  ⟨dx * f * mj, dy * f * mj, dz * f * mj⟩

/-- The softened squared distance of the Barnes-Hut leaf branch
(src/include/Octree.hpp line 182). -/
noncomputable def bhLeafSoftenedDistSq (bodyPos otherPos : Vec3 ℝ) : ℝ :=
  (otherPos - bodyPos).lengthSquared + 1e-4

/-- The contribution of the leaf branch of
`OctreePool::calculateForceIterative` (src/include/Octree.hpp lines
179-185) to the query body's acceleration: the accumulated force term,
divided by the body's mass as done at the end of `stepBarnesHut`
(src/include/PhysicsEngine.hpp line 283). -/
noncomputable def bhLeafAccel (bodyPos otherPos : Vec3 ℝ) (mBody mOther : ℝ) : Vec3 ℝ :=
  let r := otherPos - bodyPos
  let d2 := r.lengthSquared + 1e-4
  let invD3 := 1 / (d2 * Real.sqrt d2)
  (r * (Constants.G * mBody * mOther * invD3)) / mBody

/-- The contribution of the opening-angle approximation branch of
`OctreePool::calculateForceIterative` (src/include/Octree.hpp lines
187-192) to the query body's acceleration. -/
noncomputable def bhApproxAccel (bodyPos com : Vec3 ℝ) (mBody nodeMass : ℝ) : Vec3 ℝ :=
  let r := com - bodyPos
  let d2 := r.lengthSquared + 1e-4
  let invD3 := 1 / (d2 * Real.sqrt d2)
  (r * (Constants.G * mBody * nodeMass * invD3)) / mBody

/-- The spec's common form of a softened acceleration contribution, as a
function of the softening epsilon; the refinement theorems compare the
direct and Barnes-Hut code paths against it. -/
noncomputable def softenedAccelContribution (eps : ℝ) (posI posJ : Vec3 ℝ) (mj : ℝ) : Vec3 ℝ :=
  let r := posJ - posI
  let d2 := r.lengthSquared + eps
  r * (Constants.G * mj / (d2 * Real.sqrt d2))

/-- The minimum-squared-separation scan of `getAdaptiveTimestep`
(src/include/PhysicsEngine.hpp lines 154-160), starting from `1e18`. -/
noncomputable def minDistSqScan (bodies : List (Body ℝ)) : ℝ :=
  (pairList bodies.length).foldl
    (fun m ij =>
      let d2 := ((bodies.getD ij.2 default).position
        - (bodies.getD ij.1 default).position).lengthSquared
      if d2 < m then d2 else m)
    1e18

/-- Embedding of `PhysicsEngine::getAdaptiveTimestep`
(src/include/PhysicsEngine.hpp lines 153-162). -/
noncomputable def getAdaptiveTimestep (bodies : List (Body ℝ)) (baseDt : ℝ) : ℝ :=
  clampStd (0.01 * Real.sqrt (minDistSqScan bodies)) (baseDt / 100) baseDt

end PhysicsEngine

/-- Embedding of `KeplerianElements` (src/include/KeplerianSolver.hpp):
angles in degrees, mean anomaly at epoch in degrees. -/
structure KeplerianElements where
  a : ℝ
  e : ℝ
  i : ℝ
  Omega : ℝ
  omega : ℝ
  M : ℝ

namespace KeplerianSolver

/-- `KeplerianSolver::DEG_TO_RAD = M_PI / 180.0`. -/
noncomputable def DEG_TO_RAD : ℝ := Real.pi / 180

/-- `KeplerianSolver::MAX_ITERATIONS = 100`. -/
def MAX_ITERATIONS : ℕ := 100

/-- `KeplerianSolver::TOLERANCE = 1e-12`. -/
def TOLERANCE : ℝ := 1e-12

/-- The `for` loop of `KeplerianSolver::solveKeplersEquation`
(src/include/KeplerianSolver.hpp lines 46-53), with the remaining iteration
count as the second argument: each pass updates `E += dE` and breaks once
`|dE| < TOLERANCE`. -/
noncomputable def kepLoop (M e : ℝ) : ℝ → ℕ → ℝ
  | E, 0 => E
  | E, n + 1 =>
    let f := E - e * Real.sin E - M
    let fp := 1 - e * Real.cos E
    let dE := -f / fp
    let E2 := E + dE
    if |dE| < TOLERANCE then E2 else kepLoop M e E2 n

/-- The initial guess of `solveKeplersEquation`
(src/include/KeplerianSolver.hpp line 44): `M` when `e < 0.8`, else `π`. -/
noncomputable def kepInit (M e : ℝ) : ℝ := if e < 0.8 then M else Real.pi

/-- Embedding of `KeplerianSolver::solveKeplersEquation`
(src/include/KeplerianSolver.hpp lines 42-55). -/
noncomputable def solveKeplersEquation (M e : ℝ) : ℝ :=
  kepLoop M e (kepInit M e) MAX_ITERATIONS

/-- One Newton-Raphson update of the Kepler loop, as a pure step function:
`E + (-(E - e sin E - M) / (1 - e cos E))`. -/
noncomputable def newtonStep (M e E : ℝ) : ℝ :=
  let f := E - e * Real.sin E - M
  let fp := 1 - e * Real.cos E
  let dE := -f / fp
  E + dE

/-- Modelled from the spec and the C standard: `std::atan2(y, x)` on finite
inputs, via `Real.arctan` with the usual quadrant corrections. The C++ calls
the C library; this is its mathematical value. -/
noncomputable def atan2 (y x : ℝ) : ℝ :=
  if 0 < x then Real.arctan (y / x)
  else if x < 0 then
    (if 0 ≤ y then Real.arctan (y / x) + Real.pi else Real.arctan (y / x) - Real.pi)
  else if 0 < y then Real.pi / 2
  else if y < 0 then -(Real.pi / 2)
  else 0

/-- Embedding of `KeplerianSolver::eccentricToTrueAnomaly`
(src/include/KeplerianSolver.hpp lines 63-69). -/
noncomputable def eccentricToTrueAnomaly (E e : ℝ) : ℝ :=
  let cosE := Real.cos E
  let sinE := Real.sin E
  let y := Real.sqrt (1 - e * e) * sinE
  let x := cosE - e
  atan2 y x

/-- Embedding of `KeplerianSolver::keplerianToCartesian`
(src/include/KeplerianSolver.hpp lines 77-137). -/
noncomputable def keplerianToCartesian (el : KeplerianElements) (centralMass : ℝ) :
    Vec3 ℝ × Vec3 ℝ :=
  let a := el.a
  let e := el.e
  let i_rad := el.i * DEG_TO_RAD
  let Omega_rad := el.Omega * DEG_TO_RAD
  let omega_rad := el.omega * DEG_TO_RAD
  let M_rad := el.M * DEG_TO_RAD
  let E := solveKeplersEquation M_rad e
  let nu := eccentricToTrueAnomaly E e
  let r := a * (1 - e * Real.cos E)
  let x_orb := r * Real.cos nu
  let y_orb := r * Real.sin nu
  let mu := Constants.G * centralMass
  let h := Real.sqrt (mu * a * (1 - e * e))
  let vx_orb := -(mu / h) * Real.sin nu
  let vy_orb := (mu / h) * (e + Real.cos nu)
  let cosO := Real.cos Omega_rad
  let sinO := Real.sin Omega_rad
  let cosi := Real.cos i_rad
  let sini := Real.sin i_rad
  let cosw := Real.cos omega_rad
  let sinw := Real.sin omega_rad
  let Px := cosO * cosw - sinO * sinw * cosi
  let Py := sinO * cosw + cosO * sinw * cosi
  let Pz := sinw * sini
  let Qx := -cosO * sinw - sinO * cosw * cosi
  let Qy := -sinO * sinw + cosO * cosw * cosi
  let Qz := cosw * sini
  (⟨x_orb * Px + y_orb * Qx, x_orb * Py + y_orb * Qy, x_orb * Pz + y_orb * Qz⟩,
   ⟨vx_orb * Px + vy_orb * Qx, vx_orb * Py + vy_orb * Qy, vx_orb * Pz + vy_orb * Qz⟩)

end KeplerianSolver

/-- Embedding of `OrbitalElements` (src/include/OrbitCalculator.hpp): angles
in radians, `isValid = false` on the failure paths. The C++ leaves the
numeric fields uninitialised on those paths; the embedding zeroes them
(callers must not read them, per the spec). -/
structure OrbitalElements where
  semiMajorAxis : ℝ := 0
  eccentricity : ℝ := 0
  inclination : ℝ := 0
  longitudeAscNode : ℝ := 0
  argPeriapsis : ℝ := 0
  trueAnomaly : ℝ := 0
  isValid : Bool := false

instance : Inhabited OrbitalElements := ⟨{}⟩

namespace OrbitCalculator

/-- The eccentricity vector `e⃗ = (v × h)/μ − r/|r|` computed by
`calculateElements` (src/include/OrbitCalculator.hpp lines 66-74),
with `h = r × v`. -/
noncomputable def eccVec (pos vel : Vec3 ℝ) (mu : ℝ) : Vec3 ℝ :=
  (vel.cross (pos.cross vel)) / mu - pos / pos.length

/-- The specific orbital energy `0.5 v² − μ/r` computed by
`calculateElements` (src/include/OrbitCalculator.hpp line 63). -/
noncomputable def specificEnergy (pos vel : Vec3 ℝ) (mu : ℝ) : ℝ :=
  0.5 * vel.length * vel.length - mu / pos.length

/-- The semi-major axis `a = −μ/(2·energy)` computed by `calculateElements`
(src/include/OrbitCalculator.hpp line 87). -/
noncomputable def semiMajorAxisOf (pos vel : Vec3 ℝ) (mu : ℝ) : ℝ :=
  -mu / (2 * specificEnergy pos vel mu)

/-- Embedding of `OrbitCalculator::calculateElements`
(src/include/OrbitCalculator.hpp lines 50-134), with the intermediate
quantities factored into the named definitions above. -/
noncomputable def calculateElements (pos vel : Vec3 ℝ) (mu : ℝ) : OrbitalElements :=
  let invalid : OrbitalElements := {}
  let r := pos.length
  let v := vel.length
  if r < 1e-10 ∨ v < 1e-10 then invalid
  else
    let h := pos.cross vel
    let hMag := h.length
    if hMag < 1e-10 then invalid
    else
      let eVec := eccVec pos vel mu
      let e := eVec.length
      if |e - 1| < 1e-10 then invalid
      else if 1 < e then invalid
      else
        let a := semiMajorAxisOf pos vel mu
        if a ≤ 0 then invalid
        else
          let i := Real.arccos (clampStd (h.z / hMag) (-1) 1)
          let k : Vec3 ℝ := ⟨0, 0, 1⟩
          let n := k.cross h
          let nMag := n.length
          let Omega := if 1e-10 < nMag then
              (if n.y < 0 then 2 * Real.pi - Real.arccos (clampStd (n.x / nMag) (-1) 1)
               else Real.arccos (clampStd (n.x / nMag) (-1) 1))
            else 0
          let omega := if 1e-10 < nMag ∧ 1e-10 < e then
              (let dotNE := (n.dot eVec) / (nMag * e)
               if eVec.z < 0 then 2 * Real.pi - Real.arccos (clampStd dotNE (-1) 1)
               else Real.arccos (clampStd dotNE (-1) 1))
            else 0
          let nu := if 1e-10 < e then
              (let dotER := (eVec.dot pos) / (e * r)
               if pos.dot vel < 0 then 2 * Real.pi - Real.arccos (clampStd dotER (-1) 1)
               else Real.arccos (clampStd dotER (-1) 1))
            else 0
          { semiMajorAxis := a
            eccentricity := e
            inclination := i
            longitudeAscNode := Omega
            argPeriapsis := omega
            trueAnomaly := nu
            isValid := true }

/-- The loop body of `OrbitCalculator::generateOrbitPath`
(src/include/OrbitCalculator.hpp lines 160-187): the orbit point at true
anomaly `nu`. -/
noncomputable def orbitPathPoint (orbit : OrbitalElements) (nu : ℝ) : Vec3 ℝ :=
  let a := orbit.semiMajorAxis
  let e := orbit.eccentricity
  let i := orbit.inclination
  let Omega := orbit.longitudeAscNode
  let omega := orbit.argPeriapsis
  let p := a * (1 - e * e)
  let r := p / (1 + e * Real.cos nu)
  let xPeri := r * Real.cos nu
  let yPeri := r * Real.sin nu
  let cosO := Real.cos Omega
  let sinO := Real.sin Omega
  let cosI := Real.cos i
  let sinI := Real.sin i
  let cosW := Real.cos omega
  let sinW := Real.sin omega
  ⟨(cosO * cosW - sinO * sinW * cosI) * xPeri + (-cosO * sinW - sinO * cosW * cosI) * yPeri,
   (sinO * cosW + cosO * sinW * cosI) * xPeri + (-sinO * sinW + cosO * cosW * cosI) * yPeri,
   (sinW * sinI) * xPeri + (cosW * sinI) * yPeri⟩

/-- Embedding of `OrbitCalculator::generateOrbitPath`
(src/include/OrbitCalculator.hpp lines 143-190). The C++ `numPoints` is an
`int`; the loop `for (j = 0; j <= numPoints; ++j)` is embedded for the
non-negative counts the claims quantify over. -/
noncomputable def generateOrbitPath (orbit : OrbitalElements) (numPoints : ℕ) : List (Vec3 ℝ) :=
  if orbit.isValid = false ∨ 1 ≤ orbit.eccentricity then []
  else (List.range (numPoints + 1)).map fun (j : ℕ) =>
    orbitPathPoint orbit (2 * Real.pi * (j : ℝ) / (numPoints : ℝ))

end OrbitCalculator

/-! Theorems. First some small algebra facts about the vector operations,
shared by several claims. -/

theorem Vec3.add_smul_right {α : Type} [Field α] (a b : Vec3 α) (s : α) :
    (a + b) * s = a * s + b * s := by
  ext <;> simp [Vec3.smul_def, Vec3.add_def] <;> ring

theorem Vec3.sub_smul_right {α : Type} [Field α] (a b : Vec3 α) (s : α) :
    (a - b) * s = a * s - b * s := by
  ext <;> simp [Vec3.smul_def, Vec3.sub_def] <;> ring

theorem Vec3.zero_smul_right {α : Type} [Field α] (s : α) :
    (0 : Vec3 α) * s = 0 := by
  ext <;> simp [Vec3.smul_def, Vec3.zero_def]

theorem Vec3.div_smul_cancel {α : Type} [Field α] (v : Vec3 α) {s : α} (h : s ≠ 0) :
    (v / s) * s = v := by
  ext <;> simp [Vec3.smul_def, Vec3.div_def] <;> field_simp

/-- Unfolding equation for the fueled `insert`, used to evaluate it on
concrete inputs. -/
theorem OctreePool.insert_succ (fuel : ℕ) (p : OctreePool) (nodeIdx : ℕ) (b : Body ℚ) :
    OctreePool.insert (fuel + 1) p nodeIdx b
      = OctreePool.insertStep (OctreePool.insert fuel) p nodeIdx b := rfl

set_option maxHeartbeats 2000000 in
/-- C1: the claim states that after any insertion sequence every octree
node's `totalMass` is the sum of the masses in its subtree and its
`centerOfMass` their mass-weighted mean. The code drops the new body's mass
and position when a one-body leaf splits (`OctreePool::insert` converts the
leaf and re-inserts both bodies into children without touching the parent's
aggregates), contradicting the documentation of `OctreeNode::totalMass`.
Evaluation witness: inserting a mass-1 body at the origin and a mass-2 body
at (1,1,1) through the `stepBarnesHut` tree build leaves the root holding
`totalMass = 1` and `centerOfMass = (0,0,0)`, although its subtree holds
total mass `3` with mass-weighted mean `(2/3, 2/3, 2/3)`. -/
theorem C1_octree_root_drops_mass_on_leaf_split :
    demoRootTotalMass = some 1 ∧
    massSum demoBodies = 3 ∧
    demoRootCenterOfMass = some ⟨0, 0, 0⟩ ∧
    massWeightedAverage demoBodies = ⟨2/3, 2/3, 2/3⟩ := by
  refine ⟨?_, ?_, ?_, ?_⟩
  · norm_num [demoRootTotalMass, buildTree, demoBodies, List.foldl, min_def, max_def,
      demoBodyA, demoBodyB, Vec3.add_def, Vec3.sub_def, Vec3.smul_def,
      OctreePool.empty, OctreePool.allocate, OctreeNode.reset,
      OctreePool.insert_succ, OctreePool.insertStep, OctreePool.childSlot,
      OctreePool.get, OctreePool.set, List.getD_cons_zero, List.getD_cons_succ,
      List.set]
  · norm_num [massSum, demoBodies, demoBodyA, demoBodyB]
  · norm_num [demoRootCenterOfMass, buildTree, demoBodies, List.foldl, min_def,
      max_def, demoBodyA, demoBodyB, Vec3.add_def, Vec3.sub_def, Vec3.smul_def,
      OctreePool.empty, OctreePool.allocate, OctreeNode.reset,
      OctreePool.insert_succ, OctreePool.insertStep, OctreePool.childSlot,
      OctreePool.get, OctreePool.set, List.getD_cons_zero, List.getD_cons_succ,
      List.set, Vec3.zero_def]
  · norm_num [massWeightedAverage, massSum, demoBodies, demoBodyA, demoBodyB,
      Vec3.add_def, Vec3.smul_def, Vec3.div_def, Vec3.zero_def]

/-- Step lemma for C10: one `updatePosition` call keeps the trail within the
bound. -/
theorem updatePosition_trail_length_le (dt : ℚ) (b : Body ℚ)
    (h : b.trail.length ≤ MAX_TRAIL_POINTS) :
    (Body.updatePosition dt b).trail.length ≤ MAX_TRAIL_POINTS := by
  simp only [Body.updatePosition, Body.updateRotation]
  split_ifs with hlen
  · simp only [List.length_tail, List.length_append, List.length_singleton] at *
    omega
  · simp only [List.length_append, List.length_singleton] at *
    omega

/-- C10: `Body::updatePosition` preserves the 500-entry trail bound, appends
the new position as the last trail element, removes the oldest entry exactly
when the bound would be exceeded, and therefore the trail never exceeds 500
entries after any sequence of `updatePosition` calls. -/
theorem C10_updatePosition_trail_bound (dt : ℚ) (b : Body ℚ)
    (h : b.trail.length ≤ MAX_TRAIL_POINTS) :
    (Body.updatePosition dt b).trail.length ≤ MAX_TRAIL_POINTS ∧
    (Body.updatePosition dt b).trail.getLast?
      = some (Body.updatePosition dt b).position ∧
    (b.trail.length = MAX_TRAIL_POINTS →
      (Body.updatePosition dt b).trail
        = b.trail.tail ++ [(Body.updatePosition dt b).position]) ∧
    (∀ dts : List ℚ,
      ((dts.foldl (fun bb d => Body.updatePosition d bb) b).trail.length
        ≤ MAX_TRAIL_POINTS)) := by
  refine ⟨updatePosition_trail_length_le dt b h, ?_, ?_, ?_⟩
  · simp only [Body.updatePosition, Body.updateRotation]
    split_ifs with hlen
    · have hne : b.trail ≠ [] := by
        intro hnil
        simp [hnil, MAX_TRAIL_POINTS] at hlen
      obtain ⟨t0, ts, hts⟩ := List.exists_cons_of_ne_nil hne
      rw [hts]
      simp [List.getLast?_concat]
    · simp [List.getLast?_concat]
  · intro h500
    simp only [Body.updatePosition, Body.updateRotation]
    have hlen : MAX_TRAIL_POINTS
        < (b.trail ++ [b.position + b.velocity * dt]).length := by
      simp [h500]
    rw [if_pos hlen]
    have hne : b.trail ≠ [] := by
      intro hnil
      simp [hnil, MAX_TRAIL_POINTS] at h500
    obtain ⟨t0, ts, hts⟩ := List.exists_cons_of_ne_nil hne
    rw [hts]
    simp
  · intro dts
    induction dts generalizing b with
    | nil => simpa using h
    | cons d rest ih =>
      simpa using ih (Body.updatePosition d b) (updatePosition_trail_length_le d b h)

/-- Witness for C10 at the default body (empty trail) and `dt = 0`. -/
theorem C10_updatePosition_trail_bound_witness :
    ((default : Body ℚ)).trail.length ≤ MAX_TRAIL_POINTS ∧
    ((Body.updatePosition 0 default).trail.length ≤ MAX_TRAIL_POINTS ∧
      (Body.updatePosition 0 (default : Body ℚ)).trail.getLast?
        = some (Body.updatePosition 0 (default : Body ℚ)).position ∧
      ((default : Body ℚ).trail.length = MAX_TRAIL_POINTS →
        (Body.updatePosition 0 (default : Body ℚ)).trail
          = (default : Body ℚ).trail.tail
            ++ [(Body.updatePosition 0 (default : Body ℚ)).position]) ∧
      (∀ dts : List ℚ,
        ((dts.foldl (fun bb d => Body.updatePosition d bb) (default : Body ℚ)).trail.length
          ≤ MAX_TRAIL_POINTS))) :=
  ⟨by decide, C10_updatePosition_trail_bound 0 default (by decide)⟩

/-- C5: for positive `baseDt`, `getAdaptiveTimestep` always lands in
`[baseDt/100, baseDt]`, and it is exactly the `std::clamp` of
`0.01 · sqrt(minDistSq)` to that interval. -/
theorem C5_getAdaptiveTimestep_bounds (bodies : List (Body ℝ)) (baseDt : ℝ)
    (h : 0 < baseDt) :
    PhysicsEngine.getAdaptiveTimestep bodies baseDt ∈
      Set.Icc (baseDt / 100) baseDt ∧
    PhysicsEngine.getAdaptiveTimestep bodies baseDt =
      clampStd (0.01 * Real.sqrt (PhysicsEngine.minDistSqScan bodies))
        (baseDt / 100) baseDt := by
  have hlo : baseDt / 100 ≤ baseDt := by linarith
  refine ⟨?_, rfl⟩
  rw [Set.mem_Icc]
  unfold PhysicsEngine.getAdaptiveTimestep clampStd
  split_ifs with h1 h2
  · exact ⟨le_refl _, hlo⟩
  · exact ⟨hlo, le_refl _⟩
  · exact ⟨le_of_not_lt h1, le_of_not_lt h2⟩

/-- Auxiliary for C7: the Kepler loop with `n` remaining iterations computes
some number `k ≤ n` of Newton steps (at least one if any remain), and when it
stops before exhausting the iterations the last executed step was smaller
than the tolerance. -/
theorem kepLoop_eq_iterate (M e : ℝ) : ∀ (n : ℕ) (E : ℝ),
    ∃ k, k ≤ n ∧ (0 < n → 1 ≤ k) ∧
      KeplerianSolver.kepLoop M e E n = (KeplerianSolver.newtonStep M e)^[k] E ∧
      (k < n →
        |(KeplerianSolver.newtonStep M e)^[k] E
          - (KeplerianSolver.newtonStep M e)^[k - 1] E| < KeplerianSolver.TOLERANCE) := by
  intro n
  induction n with
  | zero =>
    intro E
    exact ⟨0, le_refl 0, by omega, rfl, by omega⟩
  | succ n ih =>
    intro E
    by_cases hstop :
        |-(E - e * Real.sin E - M) / (1 - e * Real.cos E)| < KeplerianSolver.TOLERANCE
    · refine ⟨1, by omega, fun _ => le_refl 1, ?_, ?_⟩
      · show KeplerianSolver.kepLoop M e E (n + 1) = _
        simp only [KeplerianSolver.kepLoop]
        rw [if_pos hstop, Function.iterate_one]
        rfl
      · intro _
        rw [Function.iterate_one]
        simpa [KeplerianSolver.newtonStep] using hstop
    · obtain ⟨k', hk'n, hk'pos, hres, hsmall⟩ := ih (KeplerianSolver.newtonStep M e E)
      refine ⟨k' + 1, by omega, fun _ => by omega, ?_, ?_⟩
      · show KeplerianSolver.kepLoop M e E (n + 1) = _
        simp only [KeplerianSolver.kepLoop]
        rw [if_neg hstop, Function.iterate_succ_apply]
        exact hres
      · intro hlt
        have hk'ltn : k' < n := by omega
        have h1 : 1 ≤ k' := hk'pos (by omega)
        have hsub : k' + 1 - 1 = (k' - 1) + 1 := by omega
        rw [hsub, Function.iterate_succ_apply, Function.iterate_succ_apply]
        exact hsmall hk'ltn

/-- C7: `solveKeplersEquation` always terminates with a plain estimate and no
failure signal: starting from `E₀ = M` when `e < 0.8` and `E₀ = π`
otherwise, it performs some number `k` of Newton-Raphson updates
`E += -(E - e sin E - M)/(1 - e cos E)` with `1 ≤ k ≤ 100`, stopping before
the cap only when the last step's absolute size dropped below `1e-12`, and
returns the current estimate. -/
theorem C7_solveKeplersEquation_terminates (M e : ℝ) :
    ∃ k, 1 ≤ k ∧ k ≤ KeplerianSolver.MAX_ITERATIONS ∧
      KeplerianSolver.solveKeplersEquation M e
        = (KeplerianSolver.newtonStep M e)^[k] (KeplerianSolver.kepInit M e) ∧
      (k < KeplerianSolver.MAX_ITERATIONS →
        |(KeplerianSolver.newtonStep M e)^[k] (KeplerianSolver.kepInit M e)
          - (KeplerianSolver.newtonStep M e)^[k - 1] (KeplerianSolver.kepInit M e)|
          < KeplerianSolver.TOLERANCE) ∧
      (e < 0.8 → KeplerianSolver.kepInit M e = M) ∧
      (0.8 ≤ e → KeplerianSolver.kepInit M e = Real.pi) := by
  obtain ⟨k, hkn, hkpos, hres, hsmall⟩ :=
    kepLoop_eq_iterate M e KeplerianSolver.MAX_ITERATIONS (KeplerianSolver.kepInit M e)
  refine ⟨k, hkpos (by norm_num [KeplerianSolver.MAX_ITERATIONS]), hkn, hres, hsmall,
    fun h => if_pos h, fun h => if_neg (not_lt.mpr h)⟩

/-- Witness for C7 at `M = 0`, `e = 0`. -/
theorem C7_solveKeplersEquation_terminates_witness :
    ∃ k, 1 ≤ k ∧ k ≤ KeplerianSolver.MAX_ITERATIONS ∧
      KeplerianSolver.solveKeplersEquation 0 0
        = (KeplerianSolver.newtonStep 0 0)^[k] (KeplerianSolver.kepInit 0 0) ∧
      (k < KeplerianSolver.MAX_ITERATIONS →
        |(KeplerianSolver.newtonStep 0 0)^[k] (KeplerianSolver.kepInit 0 0)
          - (KeplerianSolver.newtonStep 0 0)^[k - 1] (KeplerianSolver.kepInit 0 0)|
          < KeplerianSolver.TOLERANCE) ∧
      ((0 : ℝ) < 0.8 → KeplerianSolver.kepInit 0 0 = 0) ∧
      ((0.8 : ℝ) ≤ 0 → KeplerianSolver.kepInit 0 0 = Real.pi) :=
  C7_solveKeplersEquation_terminates 0 0

/-- C8: `generateOrbitPath` returns the empty polyline for invalid or
non-elliptical orbits, and for a valid elliptical orbit and `n ≥ 1` returns
exactly `n+1` points, the `j`-th sampled at true anomaly `2π·j/n`. -/
theorem C8_generateOrbitPath_spec (orbit : OrbitalElements) (n : ℕ) (hn : 1 ≤ n) :
    ((orbit.isValid = false ∨ 1 ≤ orbit.eccentricity) →
      OrbitCalculator.generateOrbitPath orbit n = []) ∧
    (orbit.isValid = true → orbit.eccentricity < 1 →
      (OrbitCalculator.generateOrbitPath orbit n).length = n + 1 ∧
      ∀ j : ℕ, j ≤ n →
        (OrbitCalculator.generateOrbitPath orbit n).getD j 0 =
          OrbitCalculator.orbitPathPoint orbit (2 * Real.pi * (j : ℝ) / (n : ℝ))) := by
  constructor
  · intro h
    unfold OrbitCalculator.generateOrbitPath
    rw [if_pos h]
  · intro hv he
    have hcond : ¬(orbit.isValid = false ∨ 1 ≤ orbit.eccentricity) := by
      rintro (h | h)
      · rw [hv] at h; exact Bool.noConfusion h
      · exact absurd he (not_lt.mpr h)
    unfold OrbitCalculator.generateOrbitPath
    rw [if_neg hcond]
    refine ⟨by rw [List.length_map, List.length_range], ?_⟩
    intro j hj
    have hjlt : j < ((List.range (n + 1)).map fun (j : ℕ) =>
        OrbitCalculator.orbitPathPoint orbit (2 * Real.pi * (j : ℝ) / (n : ℝ))).length := by
      rw [List.length_map, List.length_range]
      omega
    rw [List.getD_eq_getElem _ _ hjlt, List.getElem_map, List.getElem_range]

/-- Witness for C8: an invalid orbit yields the empty path, and a valid
circular orbit sampled with `n = 2` yields three points. -/
theorem C8_generateOrbitPath_spec_witness :
    (OrbitCalculator.generateOrbitPath { isValid := false } 2 = []) ∧
    (OrbitCalculator.generateOrbitPath
      { semiMajorAxis := 1, eccentricity := 0, isValid := true } 2).length = 2 + 1 :=
  ⟨(C8_generateOrbitPath_spec { isValid := false } 2 (by norm_num)).1 (Or.inl rfl),
   ((C8_generateOrbitPath_spec
      { semiMajorAxis := 1, eccentricity := 0, isValid := true } 2 (by norm_num)).2
      rfl (by norm_num)).1⟩

/-- The inverse-cube identity connecting the two code shapes
`invDist*invDist*invDist` and `1/(d2*sqrt(d2))`. -/
theorem one_div_sqrt_cubed (d : ℝ) (hd : 0 < d) :
    1 / Real.sqrt d * (1 / Real.sqrt d) * (1 / Real.sqrt d) = 1 / (d * Real.sqrt d) := by
  have hs : Real.sqrt d ≠ 0 := ne_of_gt (Real.sqrt_pos.mpr hd)
  rw [div_mul_div_comm, div_mul_div_comm]
  rw [one_mul, one_mul]
  have : Real.sqrt d * Real.sqrt d * Real.sqrt d = d * Real.sqrt d := by
    rw [Real.mul_self_sqrt hd.le]
  rw [this]

/-- The direct pairwise contribution is the spec's softened form at
`SOFTENING_EPSILON`. -/
theorem directPairAccel_eq_spec (posI posJ : Vec3 ℝ) (mj : ℝ) :
    PhysicsEngine.directPairAccel posI posJ mj =
      PhysicsEngine.softenedAccelContribution Constants.SOFTENING_EPSILON posI posJ mj := by
  have heps : (0 : ℝ) < Constants.SOFTENING_EPSILON := by
    rw [show Constants.SOFTENING_EPSILON = 1e-9 from rfl]
    norm_num
  have hd9 : (0 : ℝ) < (posJ.x - posI.x) * (posJ.x - posI.x)
      + (posJ.y - posI.y) * (posJ.y - posI.y)
      + (posJ.z - posI.z) * (posJ.z - posI.z) + Constants.SOFTENING_EPSILON := by
    have h1 := mul_self_nonneg (posJ.x - posI.x)
    have h2 := mul_self_nonneg (posJ.y - posI.y)
    have h3 := mul_self_nonneg (posJ.z - posI.z)
    linarith
  ext <;>
    simp only [PhysicsEngine.directPairAccel,
      PhysicsEngine.softenedAccelContribution, Vec3.sub_def, Vec3.lengthSquared,
      Vec3.smul_def] <;>
    rw [one_div_sqrt_cubed _ hd9] <;>
    ring

/-- The Barnes-Hut leaf contribution is the spec's softened form at the
hardcoded `1e-4`, once the force is divided by the (nonzero) body mass. -/
theorem bhLeafAccel_eq_spec (posI posJ : Vec3 ℝ) (mi mj : ℝ) (hmi : mi ≠ 0) :
    PhysicsEngine.bhLeafAccel posI posJ mi mj =
      PhysicsEngine.softenedAccelContribution 1e-4 posI posJ mj := by
  ext <;>
    (simp only [PhysicsEngine.bhLeafAccel,
      PhysicsEngine.softenedAccelContribution, Vec3.sub_def, Vec3.lengthSquared,
      Vec3.smul_def, Vec3.div_def]
     rw [div_eq_iff hmi]
     ring)

/-- The Barnes-Hut approximated-cluster contribution is the same spec form
at `1e-4`, with the node's aggregate mass in place of a body mass. -/
theorem bhApproxAccel_eq_spec (posI com : Vec3 ℝ) (mi nodeMass : ℝ) (hmi : mi ≠ 0) :
    PhysicsEngine.bhApproxAccel posI com mi nodeMass =
      PhysicsEngine.softenedAccelContribution 1e-4 posI com nodeMass := by
  ext <;>
    (simp only [PhysicsEngine.bhApproxAccel,
      PhysicsEngine.softenedAccelContribution, Vec3.sub_def, Vec3.lengthSquared,
      Vec3.smul_def, Vec3.div_def]
     rw [div_eq_iff hmi]
     ring)

/-- The softened acceleration of a unit mass at unit x-separation is
strictly decreasing in the softening epsilon. -/
theorem softenedAccel_x_strict_anti {eps1 eps2 : ℝ} (h1 : 0 < eps1) (h12 : eps1 < eps2) :
    (PhysicsEngine.softenedAccelContribution eps2 ⟨0, 0, 0⟩ ⟨1, 0, 0⟩ 1).x
      < (PhysicsEngine.softenedAccelContribution eps1 ⟨0, 0, 0⟩ ⟨1, 0, 0⟩ 1).x := by
  have hG : 0 < Constants.G := by
    rw [show Constants.G = 4 * Real.pi * Real.pi from rfl]
    positivity
  have harg : ((1 : ℝ) - 0) * (1 - 0) + (0 - 0) * (0 - 0) + (0 - 0) * (0 - 0) = 1 := by
    norm_num
  simp only [PhysicsEngine.softenedAccelContribution, Vec3.sub_def,
    Vec3.lengthSquared, Vec3.smul_def, harg]
  have he1 : (0 : ℝ) < 1 + eps1 := by linarith
  have he2 : (0 : ℝ) < 1 + eps2 := by linarith
  have hs1 : (0 : ℝ) < Real.sqrt (1 + eps1) := Real.sqrt_pos.mpr he1
  have hs12 : Real.sqrt (1 + eps1) < Real.sqrt (1 + eps2) :=
    Real.sqrt_lt_sqrt he1.le (by linarith)
  have hden : (1 + eps1) * Real.sqrt (1 + eps1)
      < (1 + eps2) * Real.sqrt (1 + eps2) :=
    mul_lt_mul'' (by linarith) hs12 he1.le hs1.le
  have hfrac : Constants.G * 1 / ((1 + eps2) * Real.sqrt (1 + eps2))
      < Constants.G * 1 / ((1 + eps1) * Real.sqrt (1 + eps1)) := by
    apply div_lt_div_of_pos_left (by linarith) (by positivity) hden
  have hone : (1 : ℝ) - 0 = 1 := by norm_num
  rw [hone, one_mul, one_mul]
  exact hfrac

/-- C2 counterexample: the direct pairwise path softens with
`SOFTENING_EPSILON = 1e-9` while the Barnes-Hut leaf branch hardcodes
`1e-4`, so for two unit-mass bodies separated by (1,0,0) the softened
squared distances and the acceleration contributions differ. -/
theorem C2_softening_differs_counterexample :
    PhysicsEngine.directSoftenedDistSq ⟨0, 0, 0⟩ ⟨1, 0, 0⟩ ≠
      PhysicsEngine.bhLeafSoftenedDistSq ⟨0, 0, 0⟩ ⟨1, 0, 0⟩ ∧
    PhysicsEngine.directPairAccel ⟨0, 0, 0⟩ ⟨1, 0, 0⟩ 1 ≠
      PhysicsEngine.bhLeafAccel ⟨0, 0, 0⟩ ⟨1, 0, 0⟩ 1 1 := by
  constructor
  · simp only [PhysicsEngine.directSoftenedDistSq, PhysicsEngine.bhLeafSoftenedDistSq,
      Constants.SOFTENING_EPSILON, Vec3.sub_def, Vec3.lengthSquared]
    norm_num
  · intro h
    rw [directPairAccel_eq_spec, bhLeafAccel_eq_spec _ _ _ _ one_ne_zero] at h
    have hx := congrArg Vec3.x h
    have hlt := @softenedAccel_x_strict_anti Constants.SOFTENING_EPSILON 1e-4
      (by rw [show Constants.SOFTENING_EPSILON = 1e-9 from rfl]; norm_num)
      (by rw [show Constants.SOFTENING_EPSILON = 1e-9 from rfl]; norm_num)
    rw [hx] at hlt
    exact lt_irrefl _ hlt

/-- C2 amended: the direct pairwise contribution and the Barnes-Hut leaf and
approximation contributions all instantiate the same softened-acceleration
form, but with different epsilon values: the direct path uses
`SOFTENING_EPSILON = 1e-9` and both Barnes-Hut branches use the hardcoded
`1e-4`; the two epsilon values differ, so the contributions agree only when
evaluated with the same epsilon. -/
theorem C2_softening_amended (posI posJ : Vec3 ℝ) (mi mj : ℝ) (hmi : mi ≠ 0) :
    PhysicsEngine.directPairAccel posI posJ mj =
      PhysicsEngine.softenedAccelContribution Constants.SOFTENING_EPSILON posI posJ mj ∧
    PhysicsEngine.bhLeafAccel posI posJ mi mj =
      PhysicsEngine.softenedAccelContribution 1e-4 posI posJ mj ∧
    PhysicsEngine.bhApproxAccel posI posJ mi mj =
      PhysicsEngine.softenedAccelContribution 1e-4 posI posJ mj ∧
    Constants.SOFTENING_EPSILON ≠ (1e-4 : ℝ) :=
  ⟨directPairAccel_eq_spec posI posJ mj, bhLeafAccel_eq_spec posI posJ mi mj hmi,
   bhApproxAccel_eq_spec posI posJ mi mj hmi,
   by rw [show Constants.SOFTENING_EPSILON = 1e-9 from rfl]; norm_num⟩

/-- Witness for C2's amended statement at unit masses. -/
theorem C2_softening_amended_witness :
    ((1 : ℝ) ≠ 0) ∧
    (PhysicsEngine.directPairAccel ⟨0, 0, 0⟩ ⟨1, 0, 0⟩ 1 =
      PhysicsEngine.softenedAccelContribution Constants.SOFTENING_EPSILON
        ⟨0, 0, 0⟩ ⟨1, 0, 0⟩ 1 ∧
    PhysicsEngine.bhLeafAccel ⟨0, 0, 0⟩ ⟨1, 0, 0⟩ 1 1 =
      PhysicsEngine.softenedAccelContribution 1e-4 ⟨0, 0, 0⟩ ⟨1, 0, 0⟩ 1 ∧
    PhysicsEngine.bhApproxAccel ⟨0, 0, 0⟩ ⟨1, 0, 0⟩ 1 1 =
      PhysicsEngine.softenedAccelContribution 1e-4 ⟨0, 0, 0⟩ ⟨1, 0, 0⟩ 1 ∧
    Constants.SOFTENING_EPSILON ≠ (1e-4 : ℝ)) :=
  ⟨by norm_num, C2_softening_amended ⟨0, 0, 0⟩ ⟨1, 0, 0⟩ 1 1 (by norm_num)⟩

/-- Elements of `(range n).drop (i+1)` lie strictly between `i` and `n`. -/
theorem mem_drop_range {n i j : ℕ} (h : j ∈ (List.range n).drop (i + 1)) :
    i < j ∧ j < n := by
  obtain ⟨k, hk, hkj⟩ := List.mem_iff_getElem.mp h
  rw [List.getElem_drop, List.getElem_range] at hkj
  rw [List.length_drop, List.length_range] at hk
  omega

/-- The pair list visits exactly the ordered index pairs `i < j < n` of the
nested loops. -/
theorem pairList_mem {n : ℕ} {ij : ℕ × ℕ} (h : ij ∈ PhysicsEngine.pairList n) :
    ij.1 < ij.2 ∧ ij.2 < n := by
  unfold PhysicsEngine.pairList at h
  simp only [List.mem_flatMap, List.mem_map] at h
  obtain ⟨i, hi, j, hj, hij⟩ := h
  obtain ⟨h1, h2⟩ := mem_drop_range hj
  rw [← hij]
  exact ⟨h1, h2⟩

/-- Updating one slot of the acceleration table shifts the mass-weighted sum
by the slot's mass-weighted difference. -/
theorem sum_smul_update (s : Finset ℕ) (f : ℕ → Vec3 ℝ) (m : ℕ → ℝ) (i : ℕ)
    (v : Vec3 ℝ) (hi : i ∈ s) :
    ∑ k ∈ s, (Function.update f i v) k * m k
      = (∑ k ∈ s, f k * m k) - f i * m i + v * m i := by
  rw [← Finset.sum_erase_add s (fun k => (Function.update f i v) k * m k) hi]
  rw [← Finset.sum_erase_add s (fun k => f k * m k) hi]
  have hcong : ∑ k ∈ s.erase i, (Function.update f i v) k * m k
      = ∑ k ∈ s.erase i, f k * m k := by
    apply Finset.sum_congr rfl
    intro k hk
    rw [Function.update_noteq (Finset.ne_of_mem_erase hk)]
  rw [hcong, Function.update_same]
  abel

/-- The mirrored mass scalings of Newton's third-law update agree. -/
theorem smul_cross_symm (x y z mi mj : ℝ) :
    (⟨x * mj, y * mj, z * mj⟩ : Vec3 ℝ) * mi
      = (⟨x * mi, y * mi, z * mi⟩ : Vec3 ℝ) * mj := by
  ext <;> simp [Vec3.smul_def] <;> ring

/-- One pairwise update of `calculateAccelerations` leaves the mass-weighted
sum of all accelerations unchanged. -/
theorem accStep_preserves_sum (pos : ℕ → Vec3 ℝ) (mass : ℕ → ℝ) (n : ℕ)
    (acc : ℕ → Vec3 ℝ) (ij : ℕ × ℕ) (h1 : ij.1 < ij.2) (h2 : ij.2 < n) :
    ∑ k ∈ Finset.range n, (PhysicsEngine.accStep pos mass acc ij) k * mass k
      = ∑ k ∈ Finset.range n, acc k * mass k := by
  have hne : ij.1 ≠ ij.2 := Nat.ne_of_lt h1
  have hmem2 : ij.2 ∈ Finset.range n := Finset.mem_range.mpr h2
  have hmem1 : ij.1 ∈ Finset.range n := Finset.mem_range.mpr (lt_trans h1 h2)
  simp only [PhysicsEngine.accStep]
  rw [sum_smul_update _ _ _ _ _ hmem2]
  rw [sum_smul_update _ _ _ _ _ hmem1]
  rw [Vec3.add_smul_right, Vec3.sub_smul_right, smul_cross_symm]
  abel

/-- Folding pairwise updates over any list of ordered in-range pairs leaves
the mass-weighted sum of accelerations unchanged. -/
theorem foldl_accStep_sum (pos : ℕ → Vec3 ℝ) (mass : ℕ → ℝ) (n : ℕ) :
    ∀ (l : List (ℕ × ℕ)) (acc : ℕ → Vec3 ℝ),
      (∀ ij ∈ l, ij.1 < ij.2 ∧ ij.2 < n) →
      ∑ k ∈ Finset.range n, (l.foldl (PhysicsEngine.accStep pos mass) acc) k * mass k
        = ∑ k ∈ Finset.range n, acc k * mass k := by
  intro l
  induction l with
  | nil => intro acc _; rfl
  | cons ij rest ih =>
    intro acc hmem
    rw [List.foldl_cons]
    rw [ih _ fun x hx => hmem x (List.mem_cons_of_mem _ hx)]
    exact accStep_preserves_sum pos mass n acc ij
      (hmem ij (List.mem_cons_self _ _)).1 (hmem ij (List.mem_cons_self _ _)).2

/-- The mass-weighted sum of the rebuilt body list equals the indexed sum of
the acceleration table against the original masses. -/
theorem massWeightedAccelSum_enumFrom (l : List (Body ℝ)) :
    ∀ (s : ℕ) (acc : ℕ → Vec3 ℝ),
      PhysicsEngine.massWeightedAccelSum
        ((l.enumFrom s).map fun ib => { ib.2 with acceleration := acc ib.1 })
        = ∑ i ∈ Finset.range l.length, acc (s + i) * (l.getD i default).mass := by
  induction l with
  | nil =>
    intro s acc
    simp [PhysicsEngine.massWeightedAccelSum]
  | cons b rest ih =>
    intro s acc
    have hstep : List.enumFrom s (b :: rest) = (s, b) :: List.enumFrom (s + 1) rest := rfl
    rw [hstep, List.map_cons]
    unfold PhysicsEngine.massWeightedAccelSum
    rw [List.map_cons, List.sum_cons]
    have ihh := ih (s + 1) acc
    unfold PhysicsEngine.massWeightedAccelSum at ihh
    rw [ihh]
    rw [List.length_cons, Finset.sum_range_succ', add_comm]
    congr 1
    apply Finset.sum_congr rfl
    intro i _
    rw [List.getD_cons_succ]
    have harith : s + 1 + i = s + (i + 1) := by omega
    rw [harith]

/-- C9: after `calculateAccelerations`, the mass-weighted sum of all
accelerations is exactly the zero vector: the pairwise loop applies Newton's
third law symmetrically, so every unordered pair contributes equal and
opposite mass-weighted terms. -/
theorem C9_newton_third_law (bodies : List (Body ℝ)) :
    PhysicsEngine.massWeightedAccelSum (PhysicsEngine.calculateAccelerations bodies) = 0 := by
  unfold PhysicsEngine.calculateAccelerations
  rw [show List.enum bodies = List.enumFrom 0 bodies from rfl]
  rw [massWeightedAccelSum_enumFrom bodies 0]
  have hz : ∀ i ∈ Finset.range bodies.length,
      ((PhysicsEngine.pairList bodies.length).foldl
          (PhysicsEngine.accStep (fun i => (bodies.getD i default).position)
            (fun i => (bodies.getD i default).mass)) fun _ => 0) (0 + i)
          * (bodies.getD i default).mass
        = ((PhysicsEngine.pairList bodies.length).foldl
            (PhysicsEngine.accStep (fun i => (bodies.getD i default).position)
              (fun i => (bodies.getD i default).mass)) fun _ => 0) i
            * (bodies.getD i default).mass := by
    intro i _
    rw [Nat.zero_add]
  rw [Finset.sum_congr rfl hz]
  rw [foldl_accStep_sum _ _ bodies.length (PhysicsEngine.pairList bodies.length)
    (fun _ => 0) fun ij hij => pairList_mem hij]
  simp [Vec3.zero_smul_right]

/-- One pass of the collision inner loop: masses stay positive, total mass
and momentum of (outer body + remainder) are conserved, and each merge event
removes exactly one body from the remainder. -/
theorem collideWith_spec (cf : ℚ → ℚ) :
    ∀ (rest : List (Body ℚ)) (b1 : Body ℚ),
      0 < b1.mass → (∀ b ∈ rest, 0 < b.mass) →
      0 < (PhysicsEngine.collideWith cf b1 rest).1.mass ∧
      (∀ b ∈ (PhysicsEngine.collideWith cf b1 rest).2, 0 < b.mass) ∧
      (PhysicsEngine.collideWith cf b1 rest).1.mass
          + PhysicsEngine.totalMass (PhysicsEngine.collideWith cf b1 rest).2
        = b1.mass + PhysicsEngine.totalMass rest ∧
      (PhysicsEngine.collideWith cf b1 rest).1.velocity
            * (PhysicsEngine.collideWith cf b1 rest).1.mass
          + PhysicsEngine.totalMomentum (PhysicsEngine.collideWith cf b1 rest).2
        = b1.velocity * b1.mass + PhysicsEngine.totalMomentum rest ∧
      (PhysicsEngine.collideWith cf b1 rest).2.length
          + PhysicsEngine.collideWithCount cf b1 rest = rest.length := by
  intro rest
  induction rest with
  | nil =>
    intro b1 h1 _
    exact ⟨h1, by simp [PhysicsEngine.collideWith],
      by simp [PhysicsEngine.collideWith],
      by simp [PhysicsEngine.collideWith],
      by simp [PhysicsEngine.collideWith, PhysicsEngine.collideWithCount]⟩
  | cons b2 rest ih =>
    intro b1 h1 hall
    have hb2 : 0 < b2.mass := hall b2 (List.mem_cons_self _ _)
    have hrest : ∀ b ∈ rest, 0 < b.mass := fun b hb => hall b (List.mem_cons_of_mem _ hb)
    by_cases hov : (b2.position - b1.position).lengthSquared
        < (b1.radius + b2.radius) * (b1.radius + b2.radius)
    · have hmm : 0 < (PhysicsEngine.mergeBodies cf b1 b2).mass := by
        show 0 < b1.mass + b2.mass
        linarith
      obtain ⟨ih1, ih2, ih3, ih4, ih5⟩ := ih (PhysicsEngine.mergeBodies cf b1 b2) hmm hrest
      have hcw : PhysicsEngine.collideWith cf b1 (b2 :: rest)
          = PhysicsEngine.collideWith cf (PhysicsEngine.mergeBodies cf b1 b2) rest := by
        simp only [PhysicsEngine.collideWith]
        rw [if_pos hov]
      have hcc : PhysicsEngine.collideWithCount cf b1 (b2 :: rest)
          = PhysicsEngine.collideWithCount cf (PhysicsEngine.mergeBodies cf b1 b2) rest + 1 := by
        simp only [PhysicsEngine.collideWithCount]
        rw [if_pos hov]
      rw [hcw, hcc]
      refine ⟨ih1, ih2, ?_, ?_, ?_⟩
      · rw [ih3]
        show b1.mass + b2.mass + _ = _
        simp only [PhysicsEngine.totalMass, List.map_cons, List.sum_cons]
        ring
      · rw [ih4]
        have hmv : (PhysicsEngine.mergeBodies cf b1 b2).velocity
              * (PhysicsEngine.mergeBodies cf b1 b2).mass
            = b1.velocity * b1.mass + b2.velocity * b2.mass := by
          show ((b1.velocity * b1.mass + b2.velocity * b2.mass) / (b1.mass + b2.mass))
              * (b1.mass + b2.mass) = _
          exact Vec3.div_smul_cancel _ (by linarith)
        rw [hmv]
        simp only [PhysicsEngine.totalMomentum, List.map_cons, List.sum_cons]
        abel
      · simp only [List.length_cons]
        omega
    · obtain ⟨ih1, ih2, ih3, ih4, ih5⟩ := ih b1 h1 hrest
      have hcw : PhysicsEngine.collideWith cf b1 (b2 :: rest)
          = ((PhysicsEngine.collideWith cf b1 rest).1,
             b2 :: (PhysicsEngine.collideWith cf b1 rest).2) := by
        simp only [PhysicsEngine.collideWith]
        rw [if_neg hov]
      have hcc : PhysicsEngine.collideWithCount cf b1 (b2 :: rest)
          = PhysicsEngine.collideWithCount cf b1 rest := by
        simp only [PhysicsEngine.collideWithCount]
        rw [if_neg hov]
      rw [hcw, hcc]
      refine ⟨ih1, ?_, ?_, ?_, ?_⟩
      · intro b hb
        rcases List.mem_cons.mp hb with h | h
        · rw [h]; exact hb2
        · exact ih2 b h
      · simp only [PhysicsEngine.totalMass, List.map_cons, List.sum_cons]
        simp only [PhysicsEngine.totalMass] at ih3
        linarith
      · simp only [PhysicsEngine.totalMomentum, List.map_cons, List.sum_cons]
        simp only [PhysicsEngine.totalMomentum] at ih4
        calc (PhysicsEngine.collideWith cf b1 rest).1.velocity
              * (PhysicsEngine.collideWith cf b1 rest).1.mass
            + (b2.velocity * b2.mass
              + ((PhysicsEngine.collideWith cf b1 rest).2.map
                  fun b => b.velocity * b.mass).sum)
            = ((PhysicsEngine.collideWith cf b1 rest).1.velocity
                * (PhysicsEngine.collideWith cf b1 rest).1.mass
              + ((PhysicsEngine.collideWith cf b1 rest).2.map
                  fun b => b.velocity * b.mass).sum) + b2.velocity * b2.mass := by abel
          _ = (b1.velocity * b1.mass
              + (rest.map fun b => b.velocity * b.mass).sum) + b2.velocity * b2.mass := by
              rw [ih4]
          _ = b1.velocity * b1.mass
              + (b2.velocity * b2.mass + (rest.map fun b => b.velocity * b.mass).sum) := by
              abel
      · simp only [List.length_cons]
        omega

/-- The outer collision loop conserves total mass and momentum, and shrinks
the body count by exactly the number of merge events. -/
theorem handleCollisionsGo_spec (cf : ℚ → ℚ) :
    ∀ (fuel : ℕ) (l : List (Body ℚ)),
      (∀ b ∈ l, 0 < b.mass) →
      PhysicsEngine.totalMass (PhysicsEngine.handleCollisionsGo cf fuel l)
        = PhysicsEngine.totalMass l ∧
      PhysicsEngine.totalMomentum (PhysicsEngine.handleCollisionsGo cf fuel l)
        = PhysicsEngine.totalMomentum l ∧
      (PhysicsEngine.handleCollisionsGo cf fuel l).length
          + PhysicsEngine.numMergeEventsGo cf fuel l = l.length := by
  intro fuel
  induction fuel with
  | zero =>
    intro l _
    cases l with
    | nil => exact ⟨rfl, rfl, by simp [PhysicsEngine.handleCollisionsGo,
        PhysicsEngine.numMergeEventsGo]⟩
    | cons b rest => exact ⟨rfl, rfl, by simp [PhysicsEngine.handleCollisionsGo,
        PhysicsEngine.numMergeEventsGo]⟩
  | succ fuel ih =>
    intro l hl
    cases l with
    | nil => exact ⟨rfl, rfl, by simp [PhysicsEngine.handleCollisionsGo,
        PhysicsEngine.numMergeEventsGo]⟩
    | cons b rest =>
      have hb := hl b (List.mem_cons_self _ _)
      have hrest : ∀ x ∈ rest, 0 < x.mass := fun x hx => hl x (List.mem_cons_of_mem _ hx)
      obtain ⟨c1, c2, c3, c4, c5⟩ := collideWith_spec cf rest b hb hrest
      obtain ⟨g1, g2, g3⟩ := ih (PhysicsEngine.collideWith cf b rest).2 c2
      have hgo : PhysicsEngine.handleCollisionsGo cf (fuel + 1) (b :: rest)
          = (PhysicsEngine.collideWith cf b rest).1
            :: PhysicsEngine.handleCollisionsGo cf fuel
                (PhysicsEngine.collideWith cf b rest).2 := rfl
      have hnum : PhysicsEngine.numMergeEventsGo cf (fuel + 1) (b :: rest)
          = PhysicsEngine.collideWithCount cf b rest
            + PhysicsEngine.numMergeEventsGo cf fuel
                (PhysicsEngine.collideWith cf b rest).2 := rfl
      rw [hgo, hnum]
      refine ⟨?_, ?_, ?_⟩
      · simp only [PhysicsEngine.totalMass, List.map_cons, List.sum_cons]
        simp only [PhysicsEngine.totalMass] at g1 c3
        linarith
      · simp only [PhysicsEngine.totalMomentum, List.map_cons, List.sum_cons]
        simp only [PhysicsEngine.totalMomentum] at g2 c4
        rw [g2]
        exact c4
      · simp only [List.length_cons]
        omega

/-- C3: `handleCollisions` conserves total mass and total momentum exactly
(in exact arithmetic, for positive masses), decreases the body count by
exactly one per merge event, and each merge event replaces the two
overlapping bodies in place by the body with mass `m1+m2`, velocity
`(m1 v1 + m2 v2)/(m1+m2)`, position `(m1 p1 + m2 p2)/(m1+m2)` and radius
`cbrt(r1³+r2³)`. -/
theorem C3_handleCollisions_conservation (cf : ℚ → ℚ) (bodies : List (Body ℚ))
    (hm : ∀ b ∈ bodies, 0 < b.mass) :
    PhysicsEngine.totalMass (PhysicsEngine.handleCollisions cf bodies)
      = PhysicsEngine.totalMass bodies ∧
    PhysicsEngine.totalMomentum (PhysicsEngine.handleCollisions cf bodies)
      = PhysicsEngine.totalMomentum bodies ∧
    (PhysicsEngine.handleCollisions cf bodies).length
        + PhysicsEngine.numMergeEvents cf bodies = bodies.length ∧
    (∀ b1 b2 : Body ℚ, ∀ rest : List (Body ℚ),
      (b2.position - b1.position).lengthSquared
          < (b1.radius + b2.radius) * (b1.radius + b2.radius) →
      PhysicsEngine.collideWith cf b1 (b2 :: rest)
        = PhysicsEngine.collideWith cf (PhysicsEngine.mergeBodies cf b1 b2) rest) ∧
    (∀ b1 b2 : Body ℚ,
      (PhysicsEngine.mergeBodies cf b1 b2).mass = b1.mass + b2.mass ∧
      (PhysicsEngine.mergeBodies cf b1 b2).velocity
        = (b1.velocity * b1.mass + b2.velocity * b2.mass) / (b1.mass + b2.mass) ∧
      (PhysicsEngine.mergeBodies cf b1 b2).position
        = (b1.position * b1.mass + b2.position * b2.mass) / (b1.mass + b2.mass) ∧
      (PhysicsEngine.mergeBodies cf b1 b2).radius
        = cf (b1.radius ^ 3 + b2.radius ^ 3)) := by
  obtain ⟨g1, g2, g3⟩ := handleCollisionsGo_spec cf bodies.length bodies hm
  refine ⟨g1, g2, g3, ?_, ?_⟩
  · intro b1 b2 rest hov
    simp only [PhysicsEngine.collideWith]
    rw [if_pos hov]
  · intro b1 b2
    exact ⟨rfl, rfl, rfl, rfl⟩

/-- Witness for C3 on two overlapping unit bodies with `cbrtFn = id`. -/
theorem C3_handleCollisions_conservation_witness :
    (∀ b ∈ [collideDemoA, collideDemoB], 0 < b.mass) ∧
    (PhysicsEngine.totalMass (PhysicsEngine.handleCollisions id [collideDemoA, collideDemoB])
      = PhysicsEngine.totalMass [collideDemoA, collideDemoB] ∧
    PhysicsEngine.totalMomentum
        (PhysicsEngine.handleCollisions id [collideDemoA, collideDemoB])
      = PhysicsEngine.totalMomentum [collideDemoA, collideDemoB] ∧
    (PhysicsEngine.handleCollisions id [collideDemoA, collideDemoB]).length
        + PhysicsEngine.numMergeEvents id [collideDemoA, collideDemoB]
      = ([collideDemoA, collideDemoB] : List (Body ℚ)).length ∧
    (∀ b1 b2 : Body ℚ, ∀ rest : List (Body ℚ),
      (b2.position - b1.position).lengthSquared
          < (b1.radius + b2.radius) * (b1.radius + b2.radius) →
      PhysicsEngine.collideWith id b1 (b2 :: rest)
        = PhysicsEngine.collideWith id (PhysicsEngine.mergeBodies id b1 b2) rest) ∧
    (∀ b1 b2 : Body ℚ,
      (PhysicsEngine.mergeBodies id b1 b2).mass = b1.mass + b2.mass ∧
      (PhysicsEngine.mergeBodies id b1 b2).velocity
        = (b1.velocity * b1.mass + b2.velocity * b2.mass) / (b1.mass + b2.mass) ∧
      (PhysicsEngine.mergeBodies id b1 b2).position
        = (b1.position * b1.mass + b2.position * b2.mass) / (b1.mass + b2.mass) ∧
      (PhysicsEngine.mergeBodies id b1 b2).radius
        = id (b1.radius ^ 3 + b2.radius ^ 3))) :=
  have hm : ∀ b ∈ [collideDemoA, collideDemoB], 0 < b.mass := by
    intro b hb
    rcases List.mem_cons.mp hb with h | hb
    · rw [h]; norm_num [collideDemoA]
    · rcases List.mem_cons.mp hb with h | hb
      · rw [h]; norm_num [collideDemoB]
      · exact absurd hb (List.not_mem_nil b)
  ⟨hm, C3_handleCollisions_conservation id [collideDemoA, collideDemoB] hm⟩

/-- C6 counterexample: with `pos = (1,0,0)`, `vel = (0,1,0)`, `mu = 1e11`
the computed eccentricity is `1 - 1e-11`, strictly below 1, the state and
angular-momentum magnitudes are 1 and the semi-major axis is positive — yet
`calculateElements` returns `isValid = false`, because the near-parabolic
guard `|e - 1| < 1e-10` also rejects elliptical orbits with `e` within
`1e-10` of 1. The claim's "exactly when" condition is therefore false. -/
theorem C6_calculateElements_claim_false :
    (OrbitCalculator.calculateElements ⟨1, 0, 0⟩ ⟨0, 1, 0⟩ 1e11).isValid = false ∧
    ¬((⟨1, 0, 0⟩ : Vec3 ℝ).length < 1e-10) ∧
    ¬((⟨0, 1, 0⟩ : Vec3 ℝ).length < 1e-10) ∧
    ¬(((⟨1, 0, 0⟩ : Vec3 ℝ).cross ⟨0, 1, 0⟩).length < 1e-10) ∧
    (OrbitCalculator.eccVec ⟨1, 0, 0⟩ ⟨0, 1, 0⟩ 1e11).length < 1 ∧
    0 < OrbitCalculator.semiMajorAxisOf ⟨1, 0, 0⟩ ⟨0, 1, 0⟩ 1e11 := by
  have hpos : (⟨1, 0, 0⟩ : Vec3 ℝ).length = 1 := by
    simp [Vec3.length, Vec3.lengthSquared]
  have hvel : (⟨0, 1, 0⟩ : Vec3 ℝ).length = 1 := by
    simp [Vec3.length, Vec3.lengthSquared]
  have hcross : (⟨1, 0, 0⟩ : Vec3 ℝ).cross ⟨0, 1, 0⟩ = ⟨0, 0, 1⟩ := by
    simp [Vec3.cross]
  have hcl : ((⟨1, 0, 0⟩ : Vec3 ℝ).cross ⟨0, 1, 0⟩).length = 1 := by
    rw [hcross]
    simp [Vec3.length, Vec3.lengthSquared]
  have heVec : OrbitCalculator.eccVec ⟨1, 0, 0⟩ ⟨0, 1, 0⟩ 1e11
      = ⟨1e-11 - 1, 0, 0⟩ := by
    simp only [OrbitCalculator.eccVec, hcross, hpos]
    ext <;> simp [Vec3.cross, Vec3.div_def, Vec3.sub_def] <;> norm_num
  have he : (OrbitCalculator.eccVec ⟨1, 0, 0⟩ ⟨0, 1, 0⟩ 1e11).length = 1 - 1e-11 := by
    rw [heVec]
    simp only [Vec3.length, Vec3.lengthSquared]
    have harg : ((1e-11 : ℝ) - 1) * (1e-11 - 1) + 0 * 0 + 0 * 0
        = (1 - 1e-11) * (1 - 1e-11) := by ring
    rw [harg, Real.sqrt_mul_self (by norm_num)]
  have ha : 0 < OrbitCalculator.semiMajorAxisOf ⟨1, 0, 0⟩ ⟨0, 1, 0⟩ 1e11 := by
    simp only [OrbitCalculator.semiMajorAxisOf, OrbitCalculator.specificEnergy,
      hpos, hvel]
    norm_num
  refine ⟨?_, by rw [hpos]; norm_num, by rw [hvel]; norm_num,
    by rw [hcl]; norm_num, by rw [he]; norm_num, ha⟩
  simp only [OrbitCalculator.calculateElements, hpos, hvel, hcl, he]
  rw [if_neg (by norm_num)]
  rw [if_neg (by norm_num)]
  rw [if_pos (by rw [show (1 : ℝ) - 1e-11 - 1 = -1e-11 by norm_num, abs_neg,
    abs_of_nonneg (by norm_num)]; norm_num)]

/-- C6 amended: `calculateElements` returns `isValid = false` exactly when
`|r| < 1e-10` or `|v| < 1e-10`, or `|h| < 1e-10`, or the computed
eccentricity lies within `1e-10` of 1 (the near-parabolic guard, which also
rejects some elliptical orbits), or `e > 1`, or `a ≤ 0`; in every other case
it returns `isValid = true` with the semi-major axis and eccentricity fields
carrying the computed values. -/
theorem C6_calculateElements_validity_amended (pos vel : Vec3 ℝ) (mu : ℝ) :
    ((OrbitCalculator.calculateElements pos vel mu).isValid = false ↔
      (pos.length < 1e-10 ∨ vel.length < 1e-10 ∨
        (pos.cross vel).length < 1e-10 ∨
        |(OrbitCalculator.eccVec pos vel mu).length - 1| < 1e-10 ∨
        1 < (OrbitCalculator.eccVec pos vel mu).length ∨
        OrbitCalculator.semiMajorAxisOf pos vel mu ≤ 0)) ∧
    ((OrbitCalculator.calculateElements pos vel mu).isValid = true →
      (OrbitCalculator.calculateElements pos vel mu).semiMajorAxis
          = OrbitCalculator.semiMajorAxisOf pos vel mu ∧
      (OrbitCalculator.calculateElements pos vel mu).eccentricity
          = (OrbitCalculator.eccVec pos vel mu).length) := by
  simp only [OrbitCalculator.calculateElements]
  by_cases h1 : pos.length < 1e-10 ∨ vel.length < 1e-10
  · rw [if_pos h1]
    exact ⟨iff_of_true rfl (by tauto), by intro hv; exact absurd hv (by simp)⟩
  · rw [if_neg h1]
    by_cases h2 : (pos.cross vel).length < 1e-10
    · rw [if_pos h2]
      exact ⟨iff_of_true rfl (by tauto), by intro hv; exact absurd hv (by simp)⟩
    · rw [if_neg h2]
      by_cases h3 : |(OrbitCalculator.eccVec pos vel mu).length - 1| < 1e-10
      · rw [if_pos h3]
        exact ⟨iff_of_true rfl (by tauto), by intro hv; exact absurd hv (by simp)⟩
      · rw [if_neg h3]
        by_cases h4 : 1 < (OrbitCalculator.eccVec pos vel mu).length
        · rw [if_pos h4]
          exact ⟨iff_of_true rfl (by tauto), by intro hv; exact absurd hv (by simp)⟩
        · rw [if_neg h4]
          by_cases h5 : OrbitCalculator.semiMajorAxisOf pos vel mu ≤ 0
          · rw [if_pos h5]
            exact ⟨iff_of_true rfl (by tauto), by intro hv; exact absurd hv (by simp)⟩
          · rw [if_neg h5]
            refine ⟨iff_of_false (by simp) (by tauto), fun _ => ⟨rfl, rfl⟩⟩

/-! Vector algebra facts used to analyse the Keplerian round trip (C4). -/

theorem Vec3.lengthSquared_eq_dot (v : Vec3 ℝ) : v.lengthSquared = v.dot v := rfl

theorem Vec3.dot_comm' (a b : Vec3 ℝ) : a.dot b = b.dot a := by
  simp [Vec3.dot]
  ring

theorem Vec3.cross_smul_right (a b : Vec3 ℝ) (s : ℝ) :
    a.cross (b * s) = (a.cross b) * s := by
  ext <;> simp [Vec3.cross, Vec3.smul_def] <;> ring

theorem Vec3.cross_cross (a b c : Vec3 ℝ) :
    a.cross (b.cross c) = b * (a.dot c) - c * (a.dot b) := by
  ext <;> simp [Vec3.cross, Vec3.dot, Vec3.smul_def, Vec3.sub_def] <;> ring

theorem Vec3.lagrange (a b : Vec3 ℝ) :
    (a.cross b).dot (a.cross b) = (a.dot a) * (b.dot b) - (a.dot b) ^ 2 := by
  simp [Vec3.cross, Vec3.dot]
  ring

theorem Vec3.lengthSquared_lincomb (P Q : Vec3 ℝ) (x y : ℝ) :
    (P * x + Q * y).lengthSquared
      = x ^ 2 * (P.dot P) + 2 * x * y * (P.dot Q) + y ^ 2 * (Q.dot Q) := by
  simp [Vec3.lengthSquared, Vec3.dot, Vec3.add_def, Vec3.smul_def]
  ring

theorem Vec3.cross_lincomb (P Q : Vec3 ℝ) (x y vx vy : ℝ) :
    (P * x + Q * y).cross (P * vx + Q * vy) = (P.cross Q) * (x * vy - y * vx) := by
  ext <;> simp [Vec3.cross, Vec3.add_def, Vec3.smul_def] <;> ring

theorem Vec3.lincomb_dot (P Q R : Vec3 ℝ) (x y : ℝ) :
    (P * x + Q * y).dot R = x * (P.dot R) + y * (Q.dot R) := by
  simp [Vec3.dot, Vec3.add_def, Vec3.smul_def]
  ring

theorem Vec3.lengthSquared_smul (v : Vec3 ℝ) (s : ℝ) :
    (v * s).lengthSquared = s ^ 2 * (v.dot v) := by
  simp [Vec3.lengthSquared, Vec3.dot, Vec3.smul_def]
  ring

/-- Auxiliary square-root identity for the `atan2` lemmas. -/
theorem sqrt_one_add_div_sq (y x : ℝ) (hx0 : x ≠ 0) :
    Real.sqrt (1 + (y / x) ^ 2) = Real.sqrt (x ^ 2 + y ^ 2) / |x| := by
  have hx2 : (0 : ℝ) < x ^ 2 := by positivity
  have hsum : (0 : ℝ) ≤ x ^ 2 + y ^ 2 := by positivity
  rw [show 1 + (y / x) ^ 2 = (x ^ 2 + y ^ 2) / x ^ 2 by field_simp]
  rw [Real.sqrt_div hsum, Real.sqrt_sq_eq_abs]

/-- The cosine of the modelled `atan2`. -/
theorem cos_atan2 (y x : ℝ) (h : ¬(x = 0 ∧ y = 0)) :
    Real.cos (KeplerianSolver.atan2 y x) = x / Real.sqrt (x ^ 2 + y ^ 2) := by
  unfold KeplerianSolver.atan2
  rcases lt_trichotomy x 0 with hx | hx | hx
  · have hx0 : x ≠ 0 := ne_of_lt hx
    have habs : |x| = -x := abs_of_neg hx
    rw [if_neg (by linarith), if_pos hx]
    have hkey := sqrt_one_add_div_sq y x hx0
    rw [habs] at hkey
    have hs : (0 : ℝ) < x ^ 2 + y ^ 2 := by nlinarith [sq_nonneg y]
    have hsne : Real.sqrt (x ^ 2 + y ^ 2) ≠ 0 := (Real.sqrt_pos.mpr hs).ne'
    by_cases hy : 0 ≤ y
    · rw [if_pos hy, Real.cos_add_pi, Real.cos_arctan, hkey]
      field_simp
    · rw [if_neg hy, Real.cos_sub_pi, Real.cos_arctan, hkey]
      field_simp
  · subst hx
    have hy0 : y ≠ 0 := fun hy => h ⟨rfl, hy⟩
    rw [if_neg (lt_irrefl 0), if_neg (lt_irrefl 0)]
    rcases lt_trichotomy y 0 with hy | hy | hy
    · rw [if_neg (by linarith), if_pos hy, Real.cos_neg, Real.cos_pi_div_two]
      rw [zero_div]
    · exact absurd hy hy0
    · rw [if_pos hy, Real.cos_pi_div_two, zero_div]
  · have hx0 : x ≠ 0 := ne_of_gt hx
    have habs : |x| = x := abs_of_pos hx
    rw [if_pos hx, Real.cos_arctan, sqrt_one_add_div_sq y x hx0, habs]
    rw [one_div_div]

/-- The sine of the modelled `atan2`. -/
theorem sin_atan2 (y x : ℝ) (h : ¬(x = 0 ∧ y = 0)) :
    Real.sin (KeplerianSolver.atan2 y x) = y / Real.sqrt (x ^ 2 + y ^ 2) := by
  unfold KeplerianSolver.atan2
  rcases lt_trichotomy x 0 with hx | hx | hx
  · have hx0 : x ≠ 0 := ne_of_lt hx
    have habs : |x| = -x := abs_of_neg hx
    have hkey := sqrt_one_add_div_sq y x hx0
    rw [habs] at hkey
    have hs : (0 : ℝ) < x ^ 2 + y ^ 2 := by nlinarith [sq_nonneg y]
    have hsne : Real.sqrt (x ^ 2 + y ^ 2) ≠ 0 := (Real.sqrt_pos.mpr hs).ne'
    rw [if_neg (by linarith), if_pos hx]
    by_cases hy : 0 ≤ y
    · rw [if_pos hy, Real.sin_add_pi, Real.sin_arctan, hkey]
      field_simp
      ring
    · rw [if_neg hy, Real.sin_sub_pi, Real.sin_arctan, hkey]
      field_simp
      ring
  · subst hx
    have hy0 : y ≠ 0 := fun hy => h ⟨rfl, hy⟩
    rw [if_neg (lt_irrefl 0), if_neg (lt_irrefl 0)]
    rcases lt_trichotomy y 0 with hy | hy | hy
    · rw [if_neg (by linarith), if_pos hy, Real.sin_neg, Real.sin_pi_div_two]
      have habs : |y| = -y := abs_of_neg hy
      rw [show (0 : ℝ) ^ 2 + y ^ 2 = y ^ 2 by ring, Real.sqrt_sq_eq_abs, habs]
      rw [div_neg, div_self hy0]
    · exact absurd hy hy0
    · rw [if_pos hy, Real.sin_pi_div_two]
      rw [show (0 : ℝ) ^ 2 + y ^ 2 = y ^ 2 by ring, Real.sqrt_sq_eq_abs, abs_of_pos hy,
        div_self (ne_of_gt hy)]
  · have hx0 : x ≠ 0 := ne_of_gt hx
    have habs : |x| = x := abs_of_pos hx
    have hs : (0 : ℝ) < x ^ 2 + y ^ 2 := by nlinarith [sq_nonneg y]
    have hsne : Real.sqrt (x ^ 2 + y ^ 2) ≠ 0 := (Real.sqrt_pos.mpr hs).ne'
    rw [if_pos hx, Real.sin_arctan, sqrt_one_add_div_sq y x hx0, habs]
    field_simp

theorem Vec3.lengthSquared_nonneg (v : Vec3 ℝ) : 0 ≤ v.lengthSquared := by
  simp only [Vec3.lengthSquared]
  nlinarith [mul_self_nonneg v.x, mul_self_nonneg v.y, mul_self_nonneg v.z]

/-- Core of C4: `calculateElements` exactly recovers the semi-major axis and
eccentricity from any state of the form produced by `keplerianToCartesian` —
an orbital-plane point `r(cos ν, sin ν)` with velocity
`(mu/h)(-sin ν, e + cos ν)` mapped through an orthonormal frame `P, Q`,
where `r` satisfies the conic relation and `h` the vis-viva angular
momentum. Notably the relation holds for any `ν` and `r` on the conic, so
the inexactness of the Kepler solver is irrelevant. -/
theorem calculateElements_of_orbitState
    (mu a e r h cnu snu : ℝ) (P Q W : Vec3 ℝ)
    (hPP : P.dot P = 1) (hQQ : Q.dot Q = 1) (hPQ : P.dot Q = 0)
    (hPQW : P.cross Q = W)
    (hmu : 0 < mu) (hapos : 0 < a) (he0 : 0 ≤ e) (heg : e ≤ 1 - 1e-10)
    (hrpos : 0 < r) (hrb : 1e-10 ≤ r)
    (hrel : r * (1 + e * cnu) = a * (1 - e ^ 2))
    (hcs : cnu ^ 2 + snu ^ 2 = 1)
    (hhpos : 0 < h) (hsqh : h ^ 2 = mu * a * (1 - e ^ 2)) (hhb : 1e-10 ≤ h)
    (hv20 : 1e-20 ≤ mu * (2 * a - r) / (r * a)) :
    (OrbitCalculator.calculateElements (P * (r * cnu) + Q * (r * snu))
        (P * (-(mu / h) * snu) + Q * (mu / h * (e + cnu))) mu).isValid = true ∧
    (OrbitCalculator.calculateElements (P * (r * cnu) + Q * (r * snu))
        (P * (-(mu / h) * snu) + Q * (mu / h * (e + cnu))) mu).semiMajorAxis = a ∧
    (OrbitCalculator.calculateElements (P * (r * cnu) + Q * (r * snu))
        (P * (-(mu / h) * snu) + Q * (mu / h * (e + cnu))) mu).eccentricity = e := by
  set pos : Vec3 ℝ := P * (r * cnu) + Q * (r * snu) with hpos
  set vel : Vec3 ℝ := P * (-(mu / h) * snu) + Q * (mu / h * (e + cnu)) with hvel
  have he1 : e < 1 := by linarith
  have h1me2 : 0 < 1 - e ^ 2 := by nlinarith
  have hane : a ≠ 0 := hapos.ne'
  have hrne : r ≠ 0 := hrpos.ne'
  have hhne : h ≠ 0 := hhpos.ne'
  have hmune : mu ≠ 0 := hmu.ne'
  have hpls : pos.lengthSquared = r ^ 2 := by
    rw [hpos, Vec3.lengthSquared_lincomb, hPP, hPQ, hQQ]
    linear_combination (r ^ 2) * hcs
  have hplen : pos.length = r := by
    rw [Vec3.length, hpls, Real.sqrt_sq hrpos.le]
  have hvls0 : vel.lengthSquared = (mu / h) ^ 2 * (1 + 2 * e * cnu + e ^ 2) := by
    rw [hvel, Vec3.lengthSquared_lincomb, hPP, hPQ, hQQ]
    linear_combination ((mu / h) ^ 2) * hcs
  have hkey : (1 + 2 * e * cnu + e ^ 2) * r = (1 - e ^ 2) * (2 * a - r) := by
    linear_combination 2 * hrel
  have hvls : vel.lengthSquared = mu * (2 * a - r) / (r * a) := by
    rw [hvls0, div_pow, hsqh, div_mul_eq_mul_div,
      div_eq_div_iff (by positivity) (by positivity)]
    linear_combination (mu ^ 2 * a) * hkey
  have hv2ge : 1e-20 ≤ vel.lengthSquared := by
    rw [hvls]
    exact hv20
  have hvlen : 1e-10 ≤ vel.length := by
    rw [Vec3.length]
    calc (1e-10 : ℝ) = Real.sqrt 1e-20 := by
          rw [show (1e-20 : ℝ) = 1e-10 ^ 2 by norm_num, Real.sqrt_sq (by norm_num)]
      _ ≤ _ := Real.sqrt_le_sqrt hv2ge
  have hWW : W.dot W = 1 := by
    rw [← hPQW, Vec3.lagrange, hPP, hQQ, hPQ]
    norm_num
  have hsval : r * cnu * (mu / h * (e + cnu)) - r * snu * (-(mu / h) * snu) = h := by
    have h1 : r * cnu * (mu / h * (e + cnu)) - r * snu * (-(mu / h) * snu)
        = mu / h * (r * (1 + e * cnu)) := by
      linear_combination (mu / h * r) * hcs
    rw [h1, hrel, div_mul_eq_mul_div, div_eq_iff hhne]
    linear_combination (-1 : ℝ) * hsqh
  have hcrossv : pos.cross vel = W * h := by
    rw [hpos, hvel, Vec3.cross_lincomb, hPQW, hsval]
  have hcls : (pos.cross vel).lengthSquared = h ^ 2 := by
    rw [hcrossv, Vec3.lengthSquared_smul, hWW, mul_one]
  have hclen : (pos.cross vel).length = h := by
    rw [Vec3.length, hcls, Real.sqrt_sq hhpos.le]
  have hvQ : vel.dot Q = mu / h * (e + cnu) := by
    rw [hvel, Vec3.lincomb_dot, hPQ, hQQ]
    ring
  have hvP : vel.dot P = -(mu / h) * snu := by
    rw [hvel, Vec3.lincomb_dot, hPP, Vec3.dot_comm' Q P, hPQ]
    ring
  have hvelW : vel.cross W = P * (mu / h * (e + cnu)) - Q * (-(mu / h) * snu) := by
    rw [← hPQW, Vec3.cross_cross, hvQ, hvP]
  have heccV : OrbitCalculator.eccVec pos vel mu = P * e := by
    unfold OrbitCalculator.eccVec
    rw [hcrossv, Vec3.cross_smul_right, hvelW, hplen, hpos]
    ext <;>
      (simp only [Vec3.smul_def, Vec3.sub_def, Vec3.add_def, Vec3.div_def]
       field_simp
       ring)
  have heclen : (OrbitCalculator.eccVec pos vel mu).length = e := by
    rw [heccV, Vec3.length, Vec3.lengthSquared_smul, hPP, mul_one, Real.sqrt_sq he0]
  have hmulself : vel.length * vel.length = vel.lengthSquared := by
    rw [Vec3.length]
    exact Real.mul_self_sqrt (Vec3.lengthSquared_nonneg vel)
  have hen : OrbitCalculator.specificEnergy pos vel mu = -mu / (2 * a) := by
    unfold OrbitCalculator.specificEnergy
    rw [hplen, mul_assoc, hmulself, hvls]
    field_simp
    ring
  have haout : OrbitCalculator.semiMajorAxisOf pos vel mu = a := by
    unfold OrbitCalculator.semiMajorAxisOf
    rw [hen]
    field_simp
    ring
  have hg1 : ¬(pos.length < 1e-10 ∨ vel.length < 1e-10) := by
    push_neg
    exact ⟨by rw [hplen]; exact hrb, hvlen⟩
  have hg2 : ¬((pos.cross vel).length < 1e-10) := by
    rw [hclen]
    linarith
  have hg3 : ¬(|(OrbitCalculator.eccVec pos vel mu).length - 1| < 1e-10) := by
    rw [heclen, abs_of_nonpos (by linarith)]
    push_neg
    linarith
  have hg4 : ¬(1 < (OrbitCalculator.eccVec pos vel mu).length) := by
    rw [heclen]
    linarith
  have hg5 : ¬(OrbitCalculator.semiMajorAxisOf pos vel mu ≤ 0) := by
    rw [haout]
    linarith
  simp only [OrbitCalculator.calculateElements]
  rw [if_neg hg1, if_neg hg2, if_neg hg3, if_neg hg4, if_neg hg5]
  exact ⟨rfl, haout, heclen⟩

/-- Witness for C5 on the empty body list with `baseDt = 1`. -/
theorem C5_getAdaptiveTimestep_bounds_witness :
    (0 : ℝ) < 1 ∧
    (PhysicsEngine.getAdaptiveTimestep [] 1 ∈ Set.Icc ((1 : ℝ) / 100) 1 ∧
      PhysicsEngine.getAdaptiveTimestep [] 1 =
        clampStd (0.01 * Real.sqrt (PhysicsEngine.minDistSqScan [])) ((1 : ℝ) / 100) 1) :=
  ⟨by norm_num, C5_getAdaptiveTimestep_bounds [] 1 (by norm_num)⟩

set_option maxHeartbeats 2000000 in
/-- C4 (amended): composing `keplerianToCartesian` with `calculateElements`
at the same gravitational parameter recovers the semi-major axis and the
eccentricity exactly (so in particular within any relative tolerance), for
elliptical elements kept clear of the code's hard validity cutoffs. The
angle elements are NOT recovered: `KeplerianElements` holds degrees while
`calculateElements` returns radians (see the companion counterexample). -/
theorem C4_roundtrip_recovers_a_e_amended (el : KeplerianElements) (centralMass : ℝ)
    (hcm : 0 < centralMass)
    (he0 : 0 ≤ el.e) (he1 : el.e ≤ 1 - 1e-10) (hapos : 0 < el.a)
    (hrlow : 1e-10 ≤ el.a * (1 - el.e))
    (hhlow : 1e-20 ≤ Constants.G * centralMass * el.a * (1 - el.e * el.e))
    (hvlow : 1e-20 ≤ Constants.G * centralMass * (1 - el.e) / (2 * el.a)) :
    (OrbitCalculator.calculateElements
        (KeplerianSolver.keplerianToCartesian el centralMass).1
        (KeplerianSolver.keplerianToCartesian el centralMass).2
        (Constants.G * centralMass)).isValid = true ∧
    (OrbitCalculator.calculateElements
        (KeplerianSolver.keplerianToCartesian el centralMass).1
        (KeplerianSolver.keplerianToCartesian el centralMass).2
        (Constants.G * centralMass)).semiMajorAxis = el.a ∧
    (OrbitCalculator.calculateElements
        (KeplerianSolver.keplerianToCartesian el centralMass).1
        (KeplerianSolver.keplerianToCartesian el centralMass).2
        (Constants.G * centralMass)).eccentricity = el.e := by
  have hGpos : (0 : ℝ) < Constants.G := by
    rw [show Constants.G = 4 * Real.pi * Real.pi from rfl]
    positivity
  obtain ⟨mu, hmudef⟩ : ∃ t : ℝ, t = Constants.G * centralMass := ⟨_, rfl⟩
  obtain ⟨a, hadef⟩ : ∃ t : ℝ, t = el.a := ⟨_, rfl⟩
  obtain ⟨e, hedef⟩ : ∃ t : ℝ, t = el.e := ⟨_, rfl⟩
  rw [← hmudef, ← hadef, ← hedef]
  rw [← hedef] at he0 he1
  rw [← hadef] at hapos
  rw [← hadef, ← hedef] at hrlow
  rw [← hmudef, ← hadef, ← hedef] at hhlow
  rw [← hmudef, ← hadef, ← hedef] at hvlow
  have hmu : 0 < mu := by
    rw [hmudef]
    exact mul_pos hGpos hcm
  have he1' : e < 1 := by linarith only [he1]
  have h1me2 : 0 < 1 - e * e := by
    linarith only [he1,
      mul_nonneg he0 (by linarith only [he1] : (0:ℝ) ≤ 1 - e)]
  obtain ⟨E, hEdef⟩ : ∃ t : ℝ,
      t = KeplerianSolver.solveKeplersEquation (el.M * KeplerianSolver.DEG_TO_RAD) e :=
    ⟨_, rfl⟩
  obtain ⟨cE, hcEdef⟩ : ∃ t : ℝ, t = Real.cos E := ⟨_, rfl⟩
  obtain ⟨sE, hsEdef⟩ : ∃ t : ℝ, t = Real.sin E := ⟨_, rfl⟩
  have hEs : sE ^ 2 + cE ^ 2 = 1 := by
    rw [hsEdef, hcEdef]
    exact Real.sin_sq_add_cos_sq E
  have hcle : cE ≤ 1 := by
    rw [hcEdef]
    exact Real.cos_le_one E
  have hcge : -1 ≤ cE := by
    rw [hcEdef]
    exact Real.neg_one_le_cos E
  have hden : 0 < 1 - e * cE := by
    linarith only [he1,
      mul_nonneg he0 (by linarith only [hcle] : (0:ℝ) ≤ 1 - cE)]
  obtain ⟨nu, hnudef⟩ : ∃ t : ℝ, t = KeplerianSolver.eccentricToTrueAnomaly E e :=
    ⟨_, rfl⟩
  obtain ⟨cnu, hcnudef⟩ : ∃ t : ℝ, t = Real.cos nu := ⟨_, rfl⟩
  obtain ⟨snu, hsnudef⟩ : ∃ t : ℝ, t = Real.sin nu := ⟨_, rfl⟩
  have hcs : cnu ^ 2 + snu ^ 2 = 1 := by
    rw [hcnudef, hsnudef]
    exact Real.cos_sq_add_sin_sq nu
  obtain ⟨Y, hYdef⟩ : ∃ t : ℝ, t = Real.sqrt (1 - e * e) * sE := ⟨_, rfl⟩
  obtain ⟨X, hXdef⟩ : ∃ t : ℝ, t = cE - e := ⟨_, rfl⟩
  have hYsq : Y ^ 2 = (1 - e * e) * sE ^ 2 := by
    rw [hYdef, mul_pow, Real.sq_sqrt h1me2.le]
  have hXY : X ^ 2 + Y ^ 2 = (1 - e * cE) ^ 2 := by
    rw [hXdef, hYsq]
    linear_combination (1 - e * e) * hEs
  have hnotzero : ¬(X = 0 ∧ Y = 0) := by
    rintro ⟨hx0, hy0⟩
    rw [hx0, hy0] at hXY
    norm_num at hXY
    linarith only [pow_pos hden 2, hXY]
  have hnu_atan : nu = KeplerianSolver.atan2 Y X := by
    rw [hnudef, hYdef, hXdef, hsEdef, hcEdef]
    rfl
  have hcnu_eq : cnu = X / (1 - e * cE) := by
    rw [hcnudef, hnu_atan, cos_atan2 Y X hnotzero, hXY, Real.sqrt_sq hden.le]
  obtain ⟨r, hrdef⟩ : ∃ t : ℝ, t = a * (1 - e * cE) := ⟨_, rfl⟩
  have hrpos : 0 < r := by
    rw [hrdef]
    exact mul_pos hapos hden
  have hrb : (1e-10 : ℝ) ≤ r := by
    rw [hrdef]
    linarith only [hrlow,
      mul_nonneg (mul_nonneg hapos.le he0) (by linarith only [hcle] : (0:ℝ) ≤ 1 - cE)]
  have hcnu_mul : cnu * (1 - e * cE) = cE - e := by
    rw [hcnu_eq, div_mul_cancel₀ _ hden.ne', hXdef]
  have hrel : r * (1 + e * cnu) = a * (1 - e ^ 2) := by
    rw [hrdef]
    linear_combination (a * e) * hcnu_mul
  obtain ⟨h, hhdef⟩ : ∃ t : ℝ, t = Real.sqrt (mu * a * (1 - e * e)) := ⟨_, rfl⟩
  have hmae : 0 < mu * a * (1 - e * e) := mul_pos (mul_pos hmu hapos) h1me2
  have hhpos : 0 < h := by
    rw [hhdef]
    exact Real.sqrt_pos.mpr hmae
  have hsqh : h ^ 2 = mu * a * (1 - e ^ 2) := by
    rw [hhdef, Real.sq_sqrt hmae.le]
    ring
  have hhb : (1e-10 : ℝ) ≤ h := by
    rw [hhdef]
    calc (1e-10 : ℝ) = Real.sqrt 1e-20 := by
          rw [show (1e-20 : ℝ) = 1e-10 ^ 2 by norm_num, Real.sqrt_sq (by norm_num)]
      _ ≤ _ := Real.sqrt_le_sqrt hhlow
  have hrle : r ≤ a * (1 + e) := by
    rw [hrdef]
    linarith only [
      mul_nonneg (mul_nonneg hapos.le he0) (by linarith only [hcge] : (0:ℝ) ≤ 1 + cE)]
  have hstep : mu * (1 - e) / (2 * a) ≤ mu * (2 * a - r) / (r * a) := by
    have hint1 : 0 ≤ mu * a * ((3 - e) * (a * (1 + e) - r)) :=
      mul_nonneg (mul_nonneg hmu.le hapos.le)
        (mul_nonneg (by linarith only [he1'] : (0:ℝ) ≤ 3 - e)
          (by linarith only [hrle] : (0:ℝ) ≤ a * (1 + e) - r))
    have hint2 : 0 ≤ mu * (a * a) * (1 - e) ^ 2 :=
      mul_nonneg (mul_nonneg hmu.le (mul_nonneg hapos.le hapos.le)) (sq_nonneg _)
    rw [div_le_div_iff₀ (by linarith only [hapos]) (mul_pos hrpos hapos)]
    linarith only [hint1, hint2]
  have hv20 : (1e-20 : ℝ) ≤ mu * (2 * a - r) / (r * a) := le_trans hvlow hstep
  obtain ⟨cosO, hcosO⟩ : ∃ t : ℝ, t = Real.cos (el.Omega * KeplerianSolver.DEG_TO_RAD) :=
    ⟨_, rfl⟩
  obtain ⟨sinO, hsinO⟩ : ∃ t : ℝ, t = Real.sin (el.Omega * KeplerianSolver.DEG_TO_RAD) :=
    ⟨_, rfl⟩
  obtain ⟨cosi, hcosi⟩ : ∃ t : ℝ, t = Real.cos (el.i * KeplerianSolver.DEG_TO_RAD) :=
    ⟨_, rfl⟩
  obtain ⟨sini, hsini⟩ : ∃ t : ℝ, t = Real.sin (el.i * KeplerianSolver.DEG_TO_RAD) :=
    ⟨_, rfl⟩
  obtain ⟨cosw, hcosw⟩ : ∃ t : ℝ, t = Real.cos (el.omega * KeplerianSolver.DEG_TO_RAD) :=
    ⟨_, rfl⟩
  obtain ⟨sinw, hsinw⟩ : ∃ t : ℝ, t = Real.sin (el.omega * KeplerianSolver.DEG_TO_RAD) :=
    ⟨_, rfl⟩
  have hO : sinO ^ 2 + cosO ^ 2 = 1 := by
    rw [hsinO, hcosO]
    exact Real.sin_sq_add_cos_sq _
  have hI : sini ^ 2 + cosi ^ 2 = 1 := by
    rw [hsini, hcosi]
    exact Real.sin_sq_add_cos_sq _
  have hW2 : sinw ^ 2 + cosw ^ 2 = 1 := by
    rw [hsinw, hcosw]
    exact Real.sin_sq_add_cos_sq _
  obtain ⟨P, hPdef⟩ : ∃ t : Vec3 ℝ, t = ⟨cosO * cosw - sinO * sinw * cosi,
      sinO * cosw + cosO * sinw * cosi, sinw * sini⟩ := ⟨_, rfl⟩
  obtain ⟨Q, hQdef⟩ : ∃ t : Vec3 ℝ, t = ⟨-cosO * sinw - sinO * cosw * cosi,
      -sinO * sinw + cosO * cosw * cosi, cosw * sini⟩ := ⟨_, rfl⟩
  obtain ⟨W, hWdef⟩ : ∃ t : Vec3 ℝ, t = ⟨sinO * sini, -cosO * sini, cosi⟩ := ⟨_, rfl⟩
  have hPP : P.dot P = 1 := by
    rw [hPdef]
    simp only [Vec3.dot]
    linear_combination (cosw ^ 2 + sinw ^ 2 * cosi ^ 2) * hO + sinw ^ 2 * hI + hW2
  have hQQ : Q.dot Q = 1 := by
    rw [hQdef]
    simp only [Vec3.dot]
    linear_combination (sinw ^ 2 + cosw ^ 2 * cosi ^ 2) * hO + cosw ^ 2 * hI + hW2
  have hPQ : P.dot Q = 0 := by
    rw [hPdef, hQdef]
    simp only [Vec3.dot]
    linear_combination (sinw * cosw * cosi ^ 2 - cosw * sinw) * hO + sinw * cosw * hI
  have hPQW : P.cross Q = W := by
    rw [hPdef, hQdef, hWdef]
    simp only [Vec3.cross, Vec3.mk.injEq]
    refine ⟨?_, ?_, ?_⟩
    · linear_combination (sinO * sini) * hW2
    · linear_combination (-cosO * sini) * hW2
    · linear_combination (cosi * (cosw ^ 2 + sinw ^ 2)) * hO + cosi * hW2
  have hktc : KeplerianSolver.keplerianToCartesian el centralMass
      = (P * (r * cnu) + Q * (r * snu),
         P * (-(mu / h) * snu) + Q * (mu / h * (e + cnu))) := by
    rw [hPdef, hQdef, hrdef, hcnudef, hsnudef, hhdef, hcEdef, hnudef, hEdef,
      hmudef, hadef, hedef, hcosO, hsinO, hcosi, hsini, hcosw, hsinw]
    simp only [KeplerianSolver.keplerianToCartesian, Prod.mk.injEq,
      Vec3.smul_def, Vec3.add_def, Vec3.mk.injEq]
    refine ⟨⟨?_, ?_, ?_⟩, ?_, ?_, ?_⟩ <;> ring
  have hktc1 : (KeplerianSolver.keplerianToCartesian el centralMass).1
      = P * (r * cnu) + Q * (r * snu) := by rw [hktc]
  have hktc2 : (KeplerianSolver.keplerianToCartesian el centralMass).2
      = P * (-(mu / h) * snu) + Q * (mu / h * (e + cnu)) := by rw [hktc]
  rw [hktc1, hktc2]
  exact calculateElements_of_orbitState mu a e r h cnu snu P Q W hPP hQQ hPQ hPQW
    hmu hapos he0 he1 hrpos hrb hrel hcs hhpos hsqh hhb hv20


/-- Witness for the amended C4 on a circular orbit `a = 1, e = 0` around a
unit central mass. -/
theorem C4_roundtrip_recovers_a_e_amended_witness :
    ((0:ℝ) < 1 ∧ (0:ℝ) ≤ 0 ∧ (0:ℝ) ≤ 1 - 1e-10 ∧ (0:ℝ) < 1 ∧
     (1e-10:ℝ) ≤ 1 * (1 - 0) ∧
     (1e-20:ℝ) ≤ Constants.G * 1 * 1 * (1 - 0 * 0) ∧
     (1e-20:ℝ) ≤ Constants.G * 1 * (1 - 0) / (2 * 1)) ∧
    ((OrbitCalculator.calculateElements
        (KeplerianSolver.keplerianToCartesian ⟨1, 0, 0, 0, 0, 0⟩ 1).1
        (KeplerianSolver.keplerianToCartesian ⟨1, 0, 0, 0, 0, 0⟩ 1).2
        (Constants.G * 1)).isValid = true ∧
     (OrbitCalculator.calculateElements
        (KeplerianSolver.keplerianToCartesian ⟨1, 0, 0, 0, 0, 0⟩ 1).1
        (KeplerianSolver.keplerianToCartesian ⟨1, 0, 0, 0, 0, 0⟩ 1).2
        (Constants.G * 1)).semiMajorAxis = 1 ∧
     (OrbitCalculator.calculateElements
        (KeplerianSolver.keplerianToCartesian ⟨1, 0, 0, 0, 0, 0⟩ 1).1
        (KeplerianSolver.keplerianToCartesian ⟨1, 0, 0, 0, 0, 0⟩ 1).2
        (Constants.G * 1)).eccentricity = 0) := by
  have hG : Constants.G = 4 * Real.pi * Real.pi := rfl
  have p1 : (0:ℝ) < 1 := by norm_num
  have p2 : (0:ℝ) ≤ 0 := le_refl 0
  have p3 : (0:ℝ) ≤ 1 - 1e-10 := by norm_num
  have p4 : (0:ℝ) < 1 := by norm_num
  have p5 : (1e-10:ℝ) ≤ 1 * (1 - 0) := by norm_num
  have p6 : (1e-20:ℝ) ≤ Constants.G * 1 * 1 * (1 - 0 * 0) := by
    rw [hG]
    nlinarith [Real.pi_gt_three]
  have p7 : (1e-20:ℝ) ≤ Constants.G * 1 * (1 - 0) / (2 * 1) := by
    rw [hG]
    nlinarith [Real.pi_gt_three]
  exact ⟨⟨p1, p2, p3, p4, p5, p6, p7⟩,
    C4_roundtrip_recovers_a_e_amended ⟨1, 0, 0, 0, 0, 0⟩ 1 p1 p2 p3 p4 p5 p6 p7⟩


/-- C4: the original round-trip claim is false for the angle elements —
`KeplerianElements` stores angles in degrees, `calculateElements` returns
radians. For `i = 90` degrees the recovered inclination is `π/2 ≈ 1.5708`,
nowhere near `90` within `1e-6` relative tolerance. -/
theorem C4_roundtrip_claim_false :
    ∃ (el : KeplerianElements) (centralMass : ℝ),
      0 < centralMass ∧ 0 ≤ el.e ∧ el.e < 1 ∧ 0 < el.a ∧
      ¬(|(OrbitCalculator.calculateElements
            (KeplerianSolver.keplerianToCartesian el centralMass).1
            (KeplerianSolver.keplerianToCartesian el centralMass).2
            (Constants.G * centralMass)).inclination - el.i| ≤ 1e-6 * |el.i|) := by
  have hG : Constants.G = 4 * Real.pi * Real.pi := rfl
  have hpi0 : Real.pi ≠ 0 := Real.pi_ne_zero
  have hkl : ∀ n : ℕ, KeplerianSolver.kepLoop 0 0 0 (n + 1) = 0 := by
    intro n
    rw [KeplerianSolver.kepLoop]
    norm_num [KeplerianSolver.TOLERANCE]
  have hsolve : KeplerianSolver.solveKeplersEquation 0 0 = 0 := by
    have hki : KeplerianSolver.kepInit 0 0 = 0 := by
      unfold KeplerianSolver.kepInit
      norm_num
    unfold KeplerianSolver.solveKeplersEquation
    rw [hki, show KeplerianSolver.MAX_ITERATIONS = 99 + 1 from rfl]
    exact hkl 99
  have hnu0 : KeplerianSolver.eccentricToTrueAnomaly 0 0 = 0 := by
    unfold KeplerianSolver.eccentricToTrueAnomaly KeplerianSolver.atan2
    norm_num [Real.sin_zero, Real.cos_zero, Real.arctan_zero]
  have h90 : (90:ℝ) * KeplerianSolver.DEG_TO_RAD = Real.pi / 2 := by
    rw [show KeplerianSolver.DEG_TO_RAD = Real.pi / 180 from rfl]
    ring
  have hsqrtG : Real.sqrt Constants.G = 2 * Real.pi := by
    rw [hG, show 4 * Real.pi * Real.pi = (2 * Real.pi) ^ 2 by ring,
      Real.sqrt_sq (by positivity)]
  have hGdiv : Constants.G / (2 * Real.pi) = 2 * Real.pi := by
    rw [hG]
    field_simp
    ring
  have hktc : KeplerianSolver.keplerianToCartesian ⟨1, 0, 90, 0, 0, 0⟩ 1
      = (⟨1, 0, 0⟩, ⟨0, 0, 2 * Real.pi⟩) := by
    simp only [KeplerianSolver.keplerianToCartesian, Prod.mk.injEq, Vec3.mk.injEq]
    norm_num [hsolve, hnu0, h90, hsqrtG, hGdiv, Real.sin_zero, Real.cos_zero,
      Real.cos_pi_div_two, Real.sin_pi_div_two]
  refine ⟨⟨1, 0, 90, 0, 0, 0⟩, 1, by norm_num, le_refl 0, by norm_num, by norm_num, ?_⟩
  rw [hktc]
  have hlp : (⟨1, 0, 0⟩ : Vec3 ℝ).length = 1 := by
    rw [Vec3.length]
    norm_num [Vec3.lengthSquared, Real.sqrt_one]
  have hlv : (⟨0, 0, 2 * Real.pi⟩ : Vec3 ℝ).length = 2 * Real.pi := by
    rw [Vec3.length]
    simp only [Vec3.lengthSquared]
    rw [show (0:ℝ) * 0 + 0 * 0 + 2 * Real.pi * (2 * Real.pi) = (2 * Real.pi) ^ 2 by ring,
      Real.sqrt_sq (by positivity)]
  have hcrossv : (⟨1, 0, 0⟩ : Vec3 ℝ).cross ⟨0, 0, 2 * Real.pi⟩ = ⟨0, -(2 * Real.pi), 0⟩ := by
    simp only [Vec3.cross, Vec3.mk.injEq]
    norm_num
  have hlh : (⟨0, -(2 * Real.pi), 0⟩ : Vec3 ℝ).length = 2 * Real.pi := by
    rw [Vec3.length]
    simp only [Vec3.lengthSquared]
    rw [show (0:ℝ) * 0 + -(2 * Real.pi) * -(2 * Real.pi) + 0 * 0 = (2 * Real.pi) ^ 2 by ring,
      Real.sqrt_sq (by positivity)]
  have h2pibig : (6:ℝ) < 2 * Real.pi := by linarith [Real.pi_gt_three]
  have heV : OrbitCalculator.eccVec ⟨1, 0, 0⟩ ⟨0, 0, 2 * Real.pi⟩ (Constants.G * 1)
      = ⟨0, 0, 0⟩ := by
    rw [OrbitCalculator.eccVec, hcrossv, hlp]
    simp only [Vec3.cross, Vec3.div_def, Vec3.sub_def, Vec3.mk.injEq]
    rw [hG]
    refine ⟨by field_simp; ring, by field_simp, by field_simp⟩
  have hzlen : (⟨0, 0, 0⟩ : Vec3 ℝ).length = 0 := by
    rw [Vec3.length]
    norm_num [Vec3.lengthSquared, Real.sqrt_zero]
  have hen : OrbitCalculator.specificEnergy ⟨1, 0, 0⟩ ⟨0, 0, 2 * Real.pi⟩ (Constants.G * 1)
      = -(2 * Real.pi * Real.pi) := by
    rw [OrbitCalculator.specificEnergy, hlp, hlv, hG]
    ring
  have ha1 : OrbitCalculator.semiMajorAxisOf ⟨1, 0, 0⟩ ⟨0, 0, 2 * Real.pi⟩ (Constants.G * 1)
      = 1 := by
    rw [OrbitCalculator.semiMajorAxisOf, hen, hG]
    field_simp
    ring
  have hg1 : ¬((⟨1, 0, 0⟩ : Vec3 ℝ).length < 1e-10 ∨
      (⟨0, 0, 2 * Real.pi⟩ : Vec3 ℝ).length < 1e-10) := by
    rw [hlp, hlv]
    push_neg
    constructor
    · norm_num
    · linarith only [h2pibig]
  have hg2 : ¬(((⟨1, 0, 0⟩ : Vec3 ℝ).cross ⟨0, 0, 2 * Real.pi⟩).length < 1e-10) := by
    rw [hcrossv, hlh]
    linarith only [h2pibig]
  have hg3 : ¬(|(OrbitCalculator.eccVec ⟨1, 0, 0⟩ ⟨0, 0, 2 * Real.pi⟩
      (Constants.G * 1)).length - 1| < 1e-10) := by
    rw [heV, hzlen]
    norm_num
  have hg4 : ¬(1 < (OrbitCalculator.eccVec ⟨1, 0, 0⟩ ⟨0, 0, 2 * Real.pi⟩
      (Constants.G * 1)).length) := by
    rw [heV, hzlen]
    norm_num
  have hg5 : ¬(OrbitCalculator.semiMajorAxisOf ⟨1, 0, 0⟩ ⟨0, 0, 2 * Real.pi⟩
      (Constants.G * 1) ≤ 0) := by
    rw [ha1]
    norm_num
  have hincl : (OrbitCalculator.calculateElements ⟨1, 0, 0⟩ ⟨0, 0, 2 * Real.pi⟩
      (Constants.G * 1)).inclination = Real.pi / 2 := by
    simp only [OrbitCalculator.calculateElements]
    rw [if_neg hg1, if_neg hg2, if_neg hg3, if_neg hg4, if_neg hg5]
    rw [hcrossv, hlh]
    norm_num [clampStd, Real.arccos_zero]
  rw [hincl]
  have hpi315 : Real.pi < 3.15 := Real.pi_lt_d2
  have hd : Real.pi / 2 - (90:ℝ) < 0 := by linarith only [hpi315]
  rw [show ((⟨1, 0, 90, 0, 0, 0⟩ : KeplerianElements)).i = (90:ℝ) from rfl,
    abs_of_neg hd, abs_of_pos (by norm_num : (0:ℝ) < 90)]
  push_neg
  linarith only [hpi315]

end SolarSim
